import Mathlib

/-!
# KIIT-Events backend: registration, event and notification handlers

A shallow embedding of the Express route handlers of the repository
(`routes/RegisterRoute.js`, `routes/EventRoutes.js`, `routes/NotificationRoutes.js`,
`routes/AdminRoutes.js`, `routes/SocietyRoutes.js`, `PUT /update` of
`routes/UserRoutes.js`) and of its authentication middleware over an explicit
document store, followed by the properties proved about them.

Conventions of the embedding
* Document ids (`_id`, `req.params.*`, `req.user.id`) are well-formed ObjectIds,
  modelled as natural numbers; `a.toString() !== b` is inequality of ids.
* A handler is a function from the store before the request to the store after
  it and the HTTP response.  Every `await`ed store operation may throw: the
  `Faults` argument says which one does (by its position in the handler) and
  with which error.
* Timestamps that mongoose maintains by itself (`createdAt`, `updatedAt`) are
  not part of the rows.
-/

namespace KiitEvents

/-! ## Data model (`models/*.js`) -/

/-- An ObjectId. -/
abbrev Id := Nat

/-- Row of `models/User.js`. -/
structure User where
  id : Id
  name : String
  email : String
  password : String
  phone : String
  role : String
  societyRequestStatus : String
deriving DecidableEq, Repr

/-- Row of `models/Event.js`; `societyId` is the only field that is not required. -/
structure Event where
  id : Id
  title : String
  date : String
  time : String
  location : String
  description : String
  guest : String
  registrationStatus : String
  coverImageURL : String
  eventCategory : String
  societyId : Option Id
deriving DecidableEq, Repr

/-- Row of `models/Register.js`. -/
structure Register where
  id : Id
  userId : Id
  eventId : Id
deriving DecidableEq, Repr

/-- Modelled from the spec: `models/Notification.js` is imported by the routes but
is not among the sources.  The fields are those of the spec's data model
(recipient `userId`, `message`, `link`, `isRead` with default `false`); a field the
constructor is not given stays unset (`link = none`). -/
structure Notification where
  id : Id
  userId : Id
  message : String
  link : Option String
  isRead : Bool
deriving DecidableEq, Repr

/-- A string-valued key of a JSON body or path of a stored document: not there
(`undefined`), `null`, or a string. -/
inductive Field where
  | missing
  | null
  | text (s : String)
deriving DecidableEq, Repr

/-- Row of `models/Society.js`.  `requestStatus` is not required, so a stored society
can be without it or carry `null`. -/
structure Society where
  id : Id
  name : String
  description : Option String
  president : Id
  email : String
  phone : Option String
  requestStatus : Field
deriving DecidableEq, Repr

/-- The document store: one collection per model and the ObjectId generator. -/
structure Store where
  users : List User
  events : List Event
  registers : List Register
  notifications : List Notification
  societies : List Society
  nextId : Id
deriving DecidableEq, Repr

/-- The identity `verifyToken` puts in `req.user` (the decoded token). -/
structure Claims where
  id : Id
  role : String
  name : String
  email : String
deriving DecidableEq, Repr

/-! ## Responses and store failures -/

/-- A registration with `userId` populated by `populate("userId", "name email")`:
the referenced user's id, name and email, or `null` when the user is gone. -/
structure PopulatedRegister where
  id : Id
  userId : Option (Id × String × String)
  eventId : Id
deriving DecidableEq, Repr

/-- An event with `societyId` populated by `populate("societyId", "name")`: the
stored event and the id and name of the referenced user, `null` when there is none. -/
structure PopulatedEvent where
  event : Event
  society : Option (Id × String)
deriving DecidableEq, Repr

/-- A society with `president` populated by `populate("president", "name email")`. -/
structure PopulatedSociety where
  society : Society
  president : Option (Id × String × String)
deriving DecidableEq, Repr

/-- A user document as sent after `.select("-password")`. -/
structure UserView where
  id : Id
  name : String
  email : String
  phone : String
  role : String
  societyRequestStatus : String
deriving DecidableEq, Repr

/-- The JSON bodies the handlers send. -/
inductive Body where
  | message (m : String)
  | error (m : String)
  | registered (m : String) (registration : Register) (notification : Notification)
  | eventSaved (m : String) (event : Event)
  | eventUpdated (m : String) (event : Event)
  | registrations (rows : List PopulatedRegister)
  | msg (m : String)
  | notification (n : Notification)
  | decided (m : String) (notification : Notification)
  | events (rows : List Event)
  | populatedEvents (rows : List PopulatedEvent)
  | society (row : PopulatedSociety)
  | user (row : UserView)
deriving DecidableEq, Repr

/-- What `res.status(code).json(body)` sends. -/
structure Response where
  status : Nat
  body : Body
deriving DecidableEq, Repr

/-- A thrown store error: its `err.message`, and for a batched insert the number
of documents that were written before the failure. -/
structure Fault where
  message : String
  written : Nat
deriving DecidableEq, Repr

/-- Which store operations of a handler throw, by position: `f k = some e` makes
the `k`-th awaited operation of the handler throw `e`. -/
abbrev Faults := Nat → Option Fault

/-- The store answers every operation. -/
def noFaults : Faults := fun _ => none

/-! ## Store operations (mongoose model methods) -/

/-- Model of `Event.findById(id)`. -/
def Store.findEventById (s : Store) (id : Id) : Option Event :=
  s.events.find? (fun e => e.id == id)

/-- Model of `Register.findOne({ userId, eventId })`. -/
def Store.findRegister (s : Store) (userId eventId : Id) : Option Register :=
  s.registers.find? (fun r => r.userId == userId && r.eventId == eventId)

/-- Model of `new Register({ userId, eventId }).save()` under the unique index
`registerSchema.index({ userId: 1, eventId: 1 }, { unique: true })`: the insert is
refused with a duplicate-key error when a row with the same pair is stored. -/
def Store.saveRegister (s : Store) (userId eventId : Id) : Except String (Store × Register) :=
  if s.registers.any (fun r => r.userId == userId && r.eventId == eventId) then
    .error "E11000 duplicate key error"
  else
    let registration : Register := { id := s.nextId, userId := userId, eventId := eventId }
    .ok ({ s with registers := s.registers ++ [registration], nextId := s.nextId + 1 },
         registration)

/-- Model of `new Notification({ userId, message, link, isRead }).save()`. -/
def Store.saveNotification (s : Store) (userId : Id) (message : String)
    (link : Option String) (isRead : Bool) : Store × Notification :=
  let notification : Notification :=
    { id := s.nextId, userId := userId, message := message, link := link, isRead := isRead }
  ({ s with notifications := s.notifications ++ [notification], nextId := s.nextId + 1 },
   notification)

/-! ## `routes/RegisterRoute.js` -/

/-- The `catch` block of `POST /:eventId`. -/
def registerServerError : Response := ⟨500, .message "Server error"⟩

/-- Handler `router.post("/:eventId", verifyToken, ...)` of `RegisterRoute.js`.
Awaited store operations: 0 `Event.findById`, 1 `Register.findOne`,
2 `registration.save()`, 3 `notification.save()`. -/
def registerPost (f : Faults) (s : Store) (user : Claims) (eventId : Id) : Store × Response :=
  if user.role = "society" ∨ user.role = "admin" then
    (s, ⟨403, .message "Society and admin accounts cannot register for events."⟩)
  else
    match f 0 with
    | some _ => (s, registerServerError)
    | none =>
      match s.findEventById eventId with
      | none => (s, ⟨404, .message "Event not found"⟩)
      | some event =>
        match f 1 with
        | some _ => (s, registerServerError)
        | none =>
          match s.findRegister user.id eventId with
          | some _ => (s, ⟨400, .message "Already registered for this event"⟩)
          | none =>
            match f 2 with
            | some _ => (s, registerServerError)
            | none =>
              match s.saveRegister user.id eventId with
              | .error _ => (s, registerServerError)
              | .ok (s1, registration) =>
                match f 3 with
                | some _ => (s1, registerServerError)
                | none =>
                  let (s2, notification) :=
                    s1.saveNotification user.id
                      ("You have successfully registered for \"" ++ event.title ++ "\".")
                      none false
                  (s2, ⟨201, .registered "Registered successfully" registration notification⟩)

/-- One row of the answer of `GET /:eventId/registrations`:
`populate("userId", "name email")` on a registration. -/
def Store.populateUser (s : Store) (r : Register) : PopulatedRegister :=
  { id := r.id
    userId := (s.users.find? (fun u => u.id == r.userId)).map (fun u => (u.id, u.name, u.email))
    eventId := r.eventId }

/-- Handler `router.get("/:eventId/registrations", verifyToken, ...)` of
`RegisterRoute.js`.  Awaited store operations: 0 `Event.findById`,
1 `Register.find({ eventId }).populate(...)`.  Its `catch` block answers with
`err.message`.  The handler writes nothing, so only the response is returned. -/
def registrationsGet (f : Faults) (s : Store) (user : Claims) (eventId : Id) : Response :=
  match f 0 with
  | some e => ⟨500, .message e.message⟩
  | none =>
    match s.findEventById eventId with
    | none => ⟨404, .message "Event not found"⟩
    | some event =>
      if user.role = "society" ∧ event.societyId ≠ some user.id then
        ⟨403, .message "Forbidden"⟩
      else
        match f 1 with
        | some e => ⟨500, .message e.message⟩
        | none =>
          ⟨200, .registrations
            ((s.registers.filter (fun r => r.eventId == eventId)).map s.populateUser)⟩

/-! ## `routes/EventRoutes.js` -/

/-- Body of `POST /add`, as destructured from `req.body`: a key that is absent is
`none`; for `societyId`, `none` stands for every value that `!societyId` rejects. -/
structure EventInput where
  title : Option String
  date : Option String
  time : Option String
  location : Option String
  description : Option String
  guest : Option String
  registrationStatus : Option String
  coverImageURL : Option String
  eventCategory : Option String
  societyId : Option Id
deriving DecidableEq, Repr

/-- Body of `PUT /:eventId`: the keys the handler may read, and a `societyId` key,
which a client can send as well. -/
structure EventUpdates where
  title : Option String
  date : Option String
  time : Option String
  location : Option String
  description : Option String
  guest : Option String
  registrationStatus : Option String
  coverImageURL : Option String
  eventCategory : Option String
  societyId : Option Id
deriving DecidableEq, Repr

/-- The `required: true` validator of a String path of `eventSchema`: the value
must be given and must not be the empty string. -/
def requiredString : Option String → Option String
  | some v => if v = "" then none else some v
  | none => none

/-- Model of `new Event({ ... }).save()`: the document is validated against
`eventSchema` (nine required strings) and, when valid, inserted under a new id. -/
def Store.saveNewEvent (s : Store) (b : EventInput) (societyId : Id) : Option (Store × Event) := do
  let title ← requiredString b.title
  let date ← requiredString b.date
  let time ← requiredString b.time
  let location ← requiredString b.location
  let description ← requiredString b.description
  let guest ← requiredString b.guest
  let registrationStatus ← requiredString b.registrationStatus
  let coverImageURL ← requiredString b.coverImageURL
  let eventCategory ← requiredString b.eventCategory
  let newEvent : Event :=
    { id := s.nextId, title := title, date := date, time := time, location := location,
      description := description, guest := guest, registrationStatus := registrationStatus,
      coverImageURL := coverImageURL, eventCategory := eventCategory,
      societyId := some societyId }
  pure ({ s with events := s.events ++ [newEvent], nextId := s.nextId + 1 }, newEvent)

/-- A notification document handed to `Notification.insertMany`. -/
structure NotificationDoc where
  userId : Id
  message : String
  link : Option String
deriving DecidableEq, Repr

/-- The rows `insertMany` writes for `docs`, with ids from `start` on; `isRead`
takes its default `false`. -/
def notificationRows (start : Id) : List NotificationDoc → List Notification
  | [] => []
  | d :: ds =>
    { id := start, userId := d.userId, message := d.message, link := d.link, isRead := false }
      :: notificationRows (start + 1) ds

/-- Model of `Notification.insertMany(docs)`: one row per document, in order. -/
def Store.insertNotifications (s : Store) (docs : List NotificationDoc) : Store :=
  { s with notifications := s.notifications ++ notificationRows s.nextId docs,
           nextId := s.nextId + docs.length }

/-- The `catch` block of `POST /add`. -/
def eventAddServerError : Response := ⟨500, .error "Server error"⟩

/-- Handler `router.post("/add", verifyToken, ...)` of `EventRoutes.js`.
Awaited store operations: 0 `newEvent.save()`, 1 `User.find()`,
2 `Notification.insertMany`.  A failing `insertMany` leaves the documents it had
already written. -/
def eventAdd (f : Faults) (s : Store) (user : Claims) (b : EventInput) : Store × Response :=
  if user.role ≠ "admin" then
    (s, ⟨403, .message "Only admins can create events"⟩)
  else
    match b.societyId with
    | none => (s, ⟨400, .message "societyId is required to associate the event"⟩)
    | some societyId =>
      match f 0 with
      | some _ => (s, eventAddServerError)
      | none =>
        match s.saveNewEvent b societyId with
        | none => (s, eventAddServerError)
        | some (s1, newEvent) =>
          match f 1 with
          | some _ => (s1, eventAddServerError)
          | none =>
            let users := s1.users
            let notifications : List NotificationDoc := users.map (fun u =>
              { userId := u.id
                message := "🎉 New event \"" ++ newEvent.title ++ "\" has been added!"
                link := some ("/events/" ++ toString newEvent.id) })
            match f 2 with
            | some e => (s1.insertNotifications (notifications.take e.written), eventAddServerError)
            | none =>
              (s1.insertNotifications notifications,
               ⟨201, .eventSaved "Event saved successfully" newEvent⟩)

/-- The `allowedFields.forEach` loop of `PUT /:eventId`: a field of the allow-list
is overwritten when the body defines it. -/
def applyUpdates (event : Event) (updates : EventUpdates) : Event :=
  { event with
    title := updates.title.getD event.title
    date := updates.date.getD event.date
    time := updates.time.getD event.time
    location := updates.location.getD event.location
    description := updates.description.getD event.description
    guest := updates.guest.getD event.guest
    registrationStatus := updates.registrationStatus.getD event.registrationStatus
    coverImageURL := updates.coverImageURL.getD event.coverImageURL
    eventCategory := updates.eventCategory.getD event.eventCategory }

/-- Validation of a loaded event on `event.save()`: the nine required strings are
not empty. -/
def Event.valid (e : Event) : Bool :=
  e.title != "" && e.date != "" && e.time != "" && e.location != "" &&
  e.description != "" && e.guest != "" && e.registrationStatus != "" &&
  e.coverImageURL != "" && e.eventCategory != ""

/-- Model of `event.save()` on a loaded document: the stored row with the same id is
replaced. -/
def Store.replaceEvent (s : Store) (event : Event) : Store :=
  { s with events := s.events.map (fun e => if e.id == event.id then event else e) }

/-- Handler `router.put("/:eventId", verifyToken, ...)` of `EventRoutes.js`.
Awaited store operations: 0 `Event.findById`, 1 `event.save()`. -/
def eventPut (f : Faults) (s : Store) (user : Claims) (eventId : Id) (updates : EventUpdates) :
    Store × Response :=
  match f 0 with
  | some _ => (s, ⟨500, .message "Server error"⟩)
  | none =>
    match s.findEventById eventId with
    | none => (s, ⟨404, .message "Event not found"⟩)
    | some event =>
      if user.role = "society" ∧ (event.societyId = none ∨ event.societyId ≠ some user.id) then
        (s, ⟨403, .message "You are not allowed to edit this event"⟩)
      else
        let event1 := applyUpdates event updates
        match f 1 with
        | some _ => (s, ⟨500, .message "Server error"⟩)
        | none =>
          if event1.valid then
            (s.replaceEvent event1, ⟨200, .eventUpdated "Event updated successfully" event1⟩)
          else
            (s, ⟨500, .message "Server error"⟩)

/-- Model of `Event.findByIdAndDelete(id)`: the document with that id is removed. -/
def Store.deleteEventById (s : Store) (id : Id) : Store :=
  { s with events := s.events.eraseP (fun e => e.id == id) }

/-- Handler `router.delete("/:id", verifyToken, ...)` of `EventRoutes.js`.
Awaited store operations: 0 `Event.findById`, 1 `Event.findByIdAndDelete`. -/
def eventDelete (f : Faults) (s : Store) (user : Claims) (id : Id) : Store × Response :=
  match f 0 with
  | some _ => (s, ⟨500, .message "Server error"⟩)
  | none =>
    match s.findEventById id with
    | none => (s, ⟨404, .message "Event not found"⟩)
    | some event =>
      if user.role ≠ "admin" ∧ (event.societyId = none ∨ event.societyId ≠ some user.id) then
        (s, ⟨403, .message "Unauthorized"⟩)
      else
        match f 1 with
        | some _ => (s, ⟨500, .message "Server error"⟩)
        | none => (s.deleteEventById id, ⟨200, .message "Event deleted successfully"⟩)

/-! ### The register handler as a sequence of atomic store steps

Node runs the code between two `await`s without interruption, so concurrent
requests interleave at the awaited store operations only.  `registerStep` is one
such atomic piece of `POST /:eventId`: a store operation together with the
handler code that consumes its result. -/

/-- Where a `POST /:eventId` request stands. -/
inductive RegPc where
  /-- Nothing done yet. -/
  | start
  /-- `Event.findById` returned `event`. -/
  | loaded (event : Event)
  /-- `Register.findOne` returned `null`. -/
  | checked (event : Event)
  /-- `registration.save()` succeeded. -/
  | saved (event : Event) (registration : Register)
  /-- The response has been sent. -/
  | done (r : Response)
deriving DecidableEq, Repr

/-- One atomic step of `POST /:eventId`; `fault` is the failure, if any, of the
store operation of this step. -/
def registerStep (fault : Option Fault) (user : Claims) (eventId : Id) (s : Store) :
    RegPc → Store × RegPc
  | .start =>
    if user.role = "society" ∨ user.role = "admin" then
      (s, .done ⟨403, .message "Society and admin accounts cannot register for events."⟩)
    else
      match fault with
      | some _ => (s, .done registerServerError)
      | none =>
        match s.findEventById eventId with
        | none => (s, .done ⟨404, .message "Event not found"⟩)
        | some event => (s, .loaded event)
  | .loaded event =>
    match fault with
    | some _ => (s, .done registerServerError)
    | none =>
      match s.findRegister user.id eventId with
      | some _ => (s, .done ⟨400, .message "Already registered for this event"⟩)
      | none => (s, .checked event)
  | .checked event =>
    match fault with
    | some _ => (s, .done registerServerError)
    | none =>
      match s.saveRegister user.id eventId with
      | .error _ => (s, .done registerServerError)
      | .ok (s1, registration) => (s1, .saved event registration)
  | .saved event registration =>
    match fault with
    | some _ => (s, .done registerServerError)
    | none =>
      let (s2, notification) :=
        s.saveNotification user.id
          ("You have successfully registered for \"" ++ event.title ++ "\".")
          none false
      (s2, .done ⟨201, .registered "Registered successfully" registration notification⟩)
  | .done r => (s, .done r)

/-- The four steps of one request run back to back, as in a sequential call. -/
def registerSteps (f : Faults) (user : Claims) (eventId : Id) (s : Store) : Store × RegPc :=
  let a := registerStep (f 0) user eventId s .start
  let b := registerStep (f 1) user eventId a.1 a.2
  let c := registerStep (f 2) user eventId b.1 b.2
  registerStep (f 3) user eventId c.1 c.2

/-- Concurrent identical requests `POST /:eventId` of one caller: the shared store
and where each request stands. -/
structure Concurrent where
  store : Store
  pcs : List RegPc
deriving DecidableEq, Repr

/-- The scheduler lets request number `i` take its next step (no store failure
other than the refusal of the unique index). -/
def concurrentStep (user : Claims) (eventId : Id) (c : Concurrent) (i : Nat) : Concurrent :=
  match c.pcs[i]? with
  | none => c
  | some pc =>
    let out := registerStep none user eventId c.store pc
    { store := out.1, pcs := c.pcs.set i out.2 }

/-- An interleaving is the list of request numbers in the order they are scheduled. -/
def concurrentRun (user : Claims) (eventId : Id) (c : Concurrent) (schedule : List Nat) :
    Concurrent :=
  schedule.foldl (concurrentStep user eventId) c

/-- The status each request answered with (`none` while it has not answered). -/
def Concurrent.statuses (c : Concurrent) : List (Option Nat) :=
  c.pcs.map (fun pc => match pc with
    | .done r => some r.status
    | _ => none)

/-- No two Registration rows carry the same (userId, eventId). -/
def UniquePairs (rs : List Register) : Prop :=
  rs.Pairwise (fun a b => ¬ (a.userId = b.userId ∧ a.eventId = b.eventId))

instance (rs : List Register) : Decidable (UniquePairs rs) := by
  unfold UniquePairs; infer_instance

/-! ### Listings of `routes/EventRoutes.js`

`new Date(text)` is taken as a parameter `parseDate`: the timestamp in milliseconds,
or `none` for an Invalid Date, whose comparisons are all false and whose differences
are `NaN`.  `now` is the value of `new Date()` at the request. -/

/-- The value of ``new Date(`${event.date} ${event.time}`)``. -/
def eventDateTime (parseDate : String → Option Int) (e : Event) : Option Int :=
  parseDate (e.date ++ " " ++ e.time)

/-- The comparison `eventDateTime > now`. -/
def isAfter (t : Option Int) (now : Int) : Bool :=
  match t with
  | some x => decide (now < x)
  | none => false

/-- The comparison `eventDateTime < now`. -/
def isBefore (t : Option Int) (now : Int) : Bool :=
  match t with
  | some x => decide (x < now)
  | none => false

/-- The difference `a - b` of two dates, `none` for `NaN`. -/
def dateDifference (a b : Option Int) : Option Int :=
  match a, b with
  | some x, some y => some (x - y)
  | _, _ => none

/-- Whether `compare(a, b) > 0`, that is whether the sort must put `a` after `b`; a
`NaN` result counts as 0. -/
def comesAfter {α : Type} (compare : α → α → Option Int) (a b : α) : Bool :=
  match compare a b with
  | some d => decide (0 < d)
  | none => false

/-- Insertion of `a` in front of a sorted list, behind every element it must follow. -/
def insertSorted {α : Type} (compare : α → α → Option Int) (a : α) : List α → List α
  | [] => [a]
  | b :: l => if comesAfter compare a b then b :: insertSorted compare a l else a :: b :: l

/-- Model of `Array.prototype.sort(compare)`: a stable sort by the comparator. -/
def sortWith {α : Type} (compare : α → α → Option Int) : List α → List α
  | [] => []
  | a :: l => insertSorted compare a (sortWith compare l)

/-- Model of `populate("societyId", "name")` on an event. -/
def Store.populateSociety (s : Store) (e : Event) : PopulatedEvent :=
  { event := e
    society := e.societyId.bind (fun id =>
      (s.users.find? (fun u => u.id == id)).map (fun u => (u.id, u.name))) }

/-- Handler `router.get("/", ...)` of `EventRoutes.js`.  Awaited store operation:
0 `Event.find().populate("societyId", "name")`. -/
def eventsGet (parseDate : String → Option Int) (now : Int) (f : Faults) (s : Store) : Response :=
  match f 0 with
  | some _ => ⟨500, .message "Server error"⟩
  | none =>
    let events := s.events.map s.populateSociety
    let filteredEvents :=
      events.filter (fun row => isAfter (eventDateTime parseDate row.event) now)
    ⟨200, .populatedEvents
      (sortWith (fun a b => dateDifference (eventDateTime parseDate a.event)
        (eventDateTime parseDate b.event)) filteredEvents)⟩

/-- Handler `router.get("/upcoming", ...)` of `EventRoutes.js`.  Awaited store
operation: 0 `Event.find({ registrationStatus: "upcoming" })`. -/
def eventsUpcoming (parseDate : String → Option Int) (now : Int) (f : Faults) (s : Store) :
    Response :=
  match f 0 with
  | some _ => ⟨500, .message "Server error"⟩
  | none =>
    let events := s.events.filter (fun e => e.registrationStatus == "upcoming")
    let upcomingEvents := events.filter (fun e => isAfter (eventDateTime parseDate e) now)
    ⟨200, .events
      (sortWith (fun a b => dateDifference (eventDateTime parseDate a)
        (eventDateTime parseDate b)) upcomingEvents)⟩

/-- Handler `router.get("/past", ...)` of `EventRoutes.js`.  Awaited store operation:
0 `Event.find().populate("societyId", "name")`. -/
def eventsPast (parseDate : String → Option Int) (now : Int) (f : Faults) (s : Store) : Response :=
  match f 0 with
  | some _ => ⟨500, .message "Server error"⟩
  | none =>
    let events := s.events.map s.populateSociety
    let pastEvents := events.filter (fun row => isBefore (eventDateTime parseDate row.event) now)
    ⟨200, .populatedEvents
      (sortWith (fun a b => dateDifference (eventDateTime parseDate b.event)
        (eventDateTime parseDate a.event)) pastEvents)⟩

/-- The events a listing response carries, in the order sent. -/
def Response.listedEvents (r : Response) : List Event :=
  match r.body with
  | .events rows => rows
  | .populatedEvents rows => rows.map (fun row => row.event)
  | _ => []

/-- Both dates are valid and the first is strictly before the second. -/
def strictlyEarlier (parseDate : String → Option Int) (a b : Event) : Bool :=
  match eventDateTime parseDate a, eventDateTime parseDate b with
  | some x, some y => decide (x < y)
  | _, _ => false

/-- Every event of the list is strictly earlier than the next one. -/
def strictlyAscending (parseDate : String → Option Int) : List Event → Bool
  | a :: b :: l => strictlyEarlier parseDate a b && strictlyAscending parseDate (b :: l)
  | _ => true

/-- Both dates are valid and the first is not after the second. -/
def notLater (parseDate : String → Option Int) (a b : Event) : Bool :=
  match eventDateTime parseDate a, eventDateTime parseDate b with
  | some x, some y => decide (x ≤ y)
  | _, _ => false

/-! ## `routes/NotificationRoutes.js` -/

/-- Model of `Notification.findById(id)`: the first row with that id. -/
def Store.findNotificationById (s : Store) (id : Id) : Option Notification :=
  s.notifications.find? (fun n => n.id == id)

/-- The update `{ isRead: v }` applied to the first row with id `id`. -/
def setReadFirst (id : Id) (v : Bool) : List Notification → List Notification
  | [] => []
  | n :: ns => if n.id == id then { n with isRead := v } :: ns else n :: setReadFirst id v ns

/-- Model of `Notification.findByIdAndUpdate(id, { isRead: v }, { new: true })`: the
first row with that id is updated and returned as updated; `null` when there is none. -/
def Store.findNotificationByIdAndUpdate (s : Store) (id : Id) (v : Bool) :
    Store × Option Notification :=
  match s.findNotificationById id with
  | none => (s, none)
  | some n =>
    ({ s with notifications := setReadFirst id v s.notifications }, some { n with isRead := v })

/-- Handler `router.patch("/:id/read", verifyToken, ...)` of `NotificationRoutes.js`;
`isRead` is the body's key of that name, `none` when the body does not define it.
Awaited store operation: 0 `Notification.findByIdAndUpdate`. -/
def notificationPatchRead (f : Faults) (s : Store) (_user : Claims) (id : Id)
    (isRead : Option Bool) : Store × Response :=
  match f 0 with
  | some _ => (s, ⟨500, .error "Server error"⟩)
  | none =>
    match s.findNotificationByIdAndUpdate id (match isRead with | some v => v | none => true) with
    | (s1, none) => (s1, ⟨404, .message "Notification not found"⟩)
    | (s1, some notification) => (s1, ⟨200, .notification notification⟩)

/-- Model of `Notification.deleteMany({ userId, isRead: true })`: the matching rows
are removed and their number is reported as `deletedCount`. -/
def Store.deleteReadNotifications (s : Store) (userId : Id) : Store × Nat :=
  ({ s with notifications := s.notifications.filter (fun n => !(n.userId == userId && n.isRead)) },
   s.notifications.countP (fun n => n.userId == userId && n.isRead))

/-- Handler `router.delete("/delete-read", verifyToken, ...)` of
`NotificationRoutes.js`.  Awaited store operation: 0 `Notification.deleteMany`. -/
def notificationsDeleteRead (f : Faults) (s : Store) (user : Claims) : Store × Response :=
  match f 0 with
  | some _ => (s, ⟨500, .error "Server error"⟩)
  | none =>
    let (s1, deletedCount) := s.deleteReadNotifications user.id
    (s1, ⟨200, .message ("Deleted " ++ toString deletedCount ++ " read notifications")⟩)

/-! ## Authentication: `middleware/auth.js`, `verifyAdmin` and inline checks

Token verification is an external collaborator: `verify token` is the outcome of
`jwt.verify(token, JWT_SECRET)` on a non-empty token, the decoded identity or `none`
when it throws (invalid signature, expired, not a token). -/

/-- The text before the first space and the pieces after it, as `split(" ")` cuts. -/
def splitWords : List Char → List Char × List (List Char)
  | [] => ([], [])
  | c :: cs =>
    let rest := splitWords cs
    if c = ' ' then ([], rest.1 :: rest.2) else (c :: rest.1, rest.2)

/-- The value of `authHeader.split(" ")[1]`, `none` for `undefined`. -/
def bearerToken (authHeader : String) : Option String :=
  (splitWords authHeader.toList).2.head?.map String.mk

/-- The call `jwt.verify(token, JWT_SECRET)`: it throws when the token is `undefined`
or empty, and otherwise does what `verify` says. -/
def jwtVerify (verify : String → Option Claims) (token : Option String) : Option Claims :=
  match token with
  | none => none
  | some t => if t = "" then none else verify t

/-- Middleware `verifyToken` of `middleware/auth.js`; `next` is the handler behind it,
which receives the decoded identity as `req.user`. -/
def verifyToken (verify : String → Option Claims) (authHeader : Option String)
    (next : Claims → Store → Store × Response) (s : Store) : Store × Response :=
  match authHeader with
  | none => (s, ⟨401, .msg "No token provided"⟩)
  | some header =>
    if header = "" then (s, ⟨401, .msg "No token provided"⟩)
    else
      match bearerToken header with
      | none => (s, ⟨401, .msg "Malformed token"⟩)
      | some token =>
        if token = "" then (s, ⟨401, .msg "Malformed token"⟩)
        else
          match verify token with
          | none => (s, ⟨401, .msg "Invalid or expired token"⟩)
          | some decoded => next decoded s

/-- Model of `User.findById(id)`. -/
def Store.findUserById (s : Store) (id : Id) : Option User :=
  s.users.find? (fun u => u.id == id)

/-- Middleware `verifyAdmin` of `AdminRoutes.js`; `fault` is the failure, if any, of
its `User.findById`, and `next` is the handler behind it, which receives the stored
user as `req.user`.  All of it runs inside one `try`, whose `catch` answers 500. -/
def verifyAdmin (verify : String → Option Claims) (fault : Option Fault)
    (authHeader : Option String) (next : User → Store → Store × Response) (s : Store) :
    Store × Response :=
  match authHeader with
  | none => (s, ⟨401, .error "No token provided"⟩)
  | some header =>
    if header = "" then (s, ⟨401, .error "No token provided"⟩)
    else
      match jwtVerify verify (bearerToken header) with
      | none => (s, ⟨500, .error "Server error"⟩)
      | some decoded =>
        match fault with
        | some _ => (s, ⟨500, .error "Server error"⟩)
        | none =>
          match s.findUserById decoded.id with
          | none => (s, ⟨403, .error "Access denied"⟩)
          | some user =>
            if user.role ≠ "admin" then (s, ⟨403, .error "Access denied"⟩)
            else next user s

/-! ## Society requests: `routes/SocietyRoutes.js`, `routes/AdminRoutes.js`,
`PUT /update` of `routes/UserRoutes.js` -/

/-- Validation of a user on `save()`: the four required strings are not empty.  The
values the handlers assign to `role` and `societyRequestStatus` belong to the enums. -/
def User.requiredOk (u : User) : Bool :=
  u.name != "" && u.email != "" && u.password != "" && u.phone != ""

/-- The `enum` validator of `requestStatus`: a string must be one of the three
values; the path is not required, so `undefined` and `null` pass. -/
def requestStatusOk : Field → Bool
  | .missing => true
  | .null => true
  | .text v => v == "pending" || v == "approved" || v == "rejected"

/-- Validation of a society on `save()`: the required strings are not empty and
`requestStatus` passes its enum validator. -/
def Society.valid (so : Society) : Bool :=
  so.name != "" && so.email != "" && requestStatusOk so.requestStatus

/-- Model of `user.save()` on a loaded document: the stored row with the same id is
replaced. -/
def Store.replaceUser (s : Store) (user : User) : Store :=
  { s with users := s.users.map (fun u => if u.id == user.id then user else u) }

/-- Model of `Society.findById(id)`. -/
def Store.findSocietyById (s : Store) (id : Id) : Option Society :=
  s.societies.find? (fun so => so.id == id)

/-- Model of a write of a loaded or updated society: the stored row with the same id
is replaced. -/
def Store.replaceSociety (s : Store) (society : Society) : Store :=
  { s with societies := s.societies.map (fun so => if so.id == society.id then society else so) }

/-- Model of `populate("president", "name email")` on a society. -/
def Store.populatePresident (s : Store) (so : Society) : PopulatedSociety :=
  { society := so
    president := (s.findUserById so.president).map (fun u => (u.id, u.name, u.email)) }

/-- Body of `POST /societies/request`. -/
structure SocietyRequestBody where
  name : Option String
  description : Option String
  email : Option String
  phone : Option String
deriving DecidableEq, Repr

/-- Model of `new Society({ name, description, email, phone, president, requestStatus:
"pending" }).save()`: `name` and `email` are required. -/
def Store.saveNewSociety (s : Store) (b : SocietyRequestBody) (president : Id) :
    Option (Store × Society) := do
  let name ← requiredString b.name
  let email ← requiredString b.email
  let newSociety : Society :=
    { id := s.nextId, name := name, description := b.description, president := president,
      email := email, phone := b.phone, requestStatus := .text "pending" }
  pure ({ s with societies := s.societies ++ [newSociety], nextId := s.nextId + 1 }, newSociety)

/-- The `catch` block of `POST /societies/request`. -/
def societyRequestServerError : Response :=
  ⟨500, .error "Server error while sending society request"⟩

/-- Handler `router.post("/request", ...)` of `SocietyRoutes.js`, which checks the
token itself.  Awaited store operations: 0 `User.findById`, 1 `newSociety.save()`,
2 `user.save()`. -/
def societyRequest (verify : String → Option Claims) (f : Faults) (authHeader : Option String)
    (b : SocietyRequestBody) (s : Store) : Store × Response :=
  match authHeader with
  | none => (s, ⟨401, .error "No token provided"⟩)
  | some header =>
    if header = "" then (s, ⟨401, .error "No token provided"⟩)
    else
      match jwtVerify verify (bearerToken header) with
      | none => (s, societyRequestServerError)
      | some decoded =>
        match f 0 with
        | some _ => (s, societyRequestServerError)
        | none =>
          match s.findUserById decoded.id with
          | none => (s, ⟨404, .error "User not found"⟩)
          | some user =>
            match f 1 with
            | some _ => (s, societyRequestServerError)
            | none =>
              match s.saveNewSociety b user.id with
              | none => (s, societyRequestServerError)
              | some (s1, _) =>
                let user1 := { user with societyRequestStatus := "pending" }
                match f 2 with
                | some _ => (s1, societyRequestServerError)
                | none =>
                  if user1.requiredOk then
                    (s1.replaceUser user1, ⟨201, .message "Society request sent!"⟩)
                  else
                    (s1, societyRequestServerError)

/-- The `catch` block of the decision handler. -/
def decisionServerError : Response := ⟨500, .error "Server error"⟩

/-- The text a template literal shows for the body's `decision`. -/
def Field.template : Field → String
  | .missing => "undefined"
  | .null => "null"
  | .text v => v

/-- Handler of `router.post("/society-requests/:id/decision", verifyAdmin, ...)` of
`AdminRoutes.js`, behind `verifyAdmin`; `decision` is what the body carries under that
key: nothing, `null` or a string (a value of another JSON type is cast to a string
outside the enum or refused, and fails `society.save()` like such a string).
Awaited store operations: 0 `Society.findById(...).populate`, 1 `society.save()`,
2 `president.save()`, 3 `notification.save()`.  The assignment
`society.requestStatus = decision` stores the value as it is, so `undefined` removes
the status.  When the president is not stored, `populate` yields `null` and assigning
to it throws. -/
def societyDecision (f : Faults) (s : Store) (id : Id) (decision : Field) : Store × Response :=
  match f 0 with
  | some _ => (s, decisionServerError)
  | none =>
    match s.findSocietyById id with
    | none => (s, ⟨404, .error "Society not found"⟩)
    | some found =>
      let populated := s.findUserById found.president
      let society := { found with requestStatus := decision }
      match f 1 with
      | some _ => (s, decisionServerError)
      | none =>
        if society.valid then
          let s1 := s.replaceSociety society
          match populated with
          | none => (s1, decisionServerError)
          | some loaded =>
            let president :=
              if decision = .text "approved" then
                { loaded with role := "society", societyRequestStatus := "approved" }
              else
                { loaded with societyRequestStatus := "rejected" }
            match f 2 with
            | some _ => (s1, decisionServerError)
            | none =>
              if president.requiredOk then
                let s2 := s1.replaceUser president
                let message :=
                  if decision = .text "approved" then
                    "Your society request for \"" ++ society.name ++ "\" has been approved."
                  else
                    "Your society request for \"" ++ society.name ++ "\" has been rejected."
                match f 3 with
                | some _ => (s2, decisionServerError)
                | none =>
                  let (s3, notification) := s2.saveNotification president.id message none false
                  (s3, ⟨200, .decided ("Society request " ++ decision.template ++
                          " successfully.") notification⟩)
              else
                (s1, decisionServerError)
        else
          (s, decisionServerError)

/-- The endpoint `POST /admin/society-requests/:id/decision`: `verifyAdmin`, then the
handler. -/
def adminDecisionEndpoint (verify : String → Option Claims) (authFault : Option Fault)
    (f : Faults) (authHeader : Option String) (id : Id) (decision : Field) (s : Store) :
    Store × Response :=
  verifyAdmin verify authFault authHeader (fun _ s1 => societyDecision f s1 id decision) s

/-- Body of `PUT /societies/me`, which the handler hands to `findOneAndUpdate` as the
update: every path of `societySchema` a client can name in it. -/
structure SocietyUpdates where
  name : Option String
  description : Option String
  email : Option String
  phone : Option String
  requestStatus : Option String
  president : Option Id
deriving DecidableEq, Repr

/-- The update document applied to a society: every path it names is overwritten. -/
def applySocietyUpdates (so : Society) (u : SocietyUpdates) : Society :=
  { so with
    name := u.name.getD so.name
    description := match u.description with | some d => some d | none => so.description
    email := u.email.getD so.email
    phone := match u.phone with | some d => some d | none => so.phone
    requestStatus := match u.requestStatus with | some v => .text v | none => so.requestStatus
    president := u.president.getD so.president }

/-- What mongoose shows of a loaded society: a `requestStatus` that the stored
document does not have reads as the schema default "pending". -/
def Society.hydrate (so : Society) : Society :=
  match so.requestStatus with
  | .missing => { so with requestStatus := .text "pending" }
  | _ => so

/-- Handler `router.put("/me", verifyToken, ...)` of `SocietyRoutes.js`.  Awaited
store operation: 0 `Society.findOneAndUpdate({ president }, req.body, { new: true })`,
which runs no validators. -/
def societyPutMe (f : Faults) (s : Store) (user : Claims) (updateFields : SocietyUpdates) :
    Store × Response :=
  if user.role ≠ "society" then
    (s, ⟨403, .message "Unauthorized"⟩)
  else
    match f 0 with
    | some _ => (s, ⟨500, .message "Server error while updating society"⟩)
    | none =>
      match s.societies.find? (fun so => so.president == user.id) with
      | none => (s, ⟨404, .message "Society not found"⟩)
      | some found =>
        let society := applySocietyUpdates found updateFields
        let s1 := s.replaceSociety society
        (s1, ⟨200, .society (s1.populatePresident society.hydrate)⟩)

/-- The document sent for a user after `.select("-password")`. -/
def User.view (u : User) : UserView :=
  { id := u.id, name := u.name, email := u.email, phone := u.phone, role := u.role,
    societyRequestStatus := u.societyRequestStatus }

/-- Handler `router.put("/update", verifyToken, ...)` of `UserRoutes.js`; `name` and
`phone` are the body's keys, and a key the body does not define is left out of the
update.  Awaited store operation: 0 `User.findByIdAndUpdate(req.user.id, { name,
phone }, { new: true })`.  When no user has the id the result is `null` and reading
its `email` throws. -/
def userUpdate (f : Faults) (s : Store) (user : Claims) (name phone : Option String) :
    Store × Response :=
  match f 0 with
  | some _ => (s, ⟨500, .error "Server error while updating user"⟩)
  | none =>
    match s.findUserById user.id with
    | none => (s, ⟨500, .error "Server error while updating user"⟩)
    | some found =>
      let updatedUser := { found with name := name.getD found.name, phone := phone.getD found.phone }
      (s.replaceUser updatedUser, ⟨200, .user updatedUser.view⟩)

/-- What `PUT /:eventId` with body `updates` may do to a stored event: id and owner
stay, and a field of the allow-list that the body does not define stays. -/
def OnlyAllowedChanges (updates : EventUpdates) (old new : Event) : Prop :=
  new.id = old.id ∧ new.societyId = old.societyId ∧
  (updates.title = none → new.title = old.title) ∧
  (updates.date = none → new.date = old.date) ∧
  (updates.time = none → new.time = old.time) ∧
  (updates.location = none → new.location = old.location) ∧
  (updates.description = none → new.description = old.description) ∧
  (updates.guest = none → new.guest = old.guest) ∧
  (updates.registrationStatus = none → new.registrationStatus = old.registrationStatus) ∧
  (updates.coverImageURL = none → new.coverImageURL = old.coverImageURL) ∧
  (updates.eventCategory = none → new.eventCategory = old.eventCategory)

/-- The body values of `decision` that `society.save()` accepts: no value, `null`, or
one of the three strings of the enum. -/
def AcceptedDecision (decision : Field) : Prop :=
  decision = .missing ∨ decision = .null ∨ decision = .text "pending" ∨
    decision = .text "approved" ∨ decision = .text "rejected"

/-- What a decision with body value `decision` on society `id` may do to a stored
society: the id stays, and the requestStatus either stays or, for the society named,
becomes the body value, which is then an accepted one. -/
def DecidedOrKept (id : Id) (decision : Field) (old new : Society) : Prop :=
  new.id = old.id ∧
  (new.requestStatus = old.requestStatus ∨
    (old.id = id ∧ new.requestStatus = decision ∧ AcceptedDecision decision))

/-! ## Sample data used to exercise the handlers -/

/-- A published event owned by society 2. -/
def sampleEvent : Event :=
  { id := 1, title := "Hackathon", date := "2025-01-10", time := "10:00", location := "Campus 6",
    description := "24h build", guest := "None", registrationStatus := "upcoming",
    coverImageURL := "http://img/1", eventCategory := "tech", societyId := some 2 }

/-- A society account (id 2), an admin (id 3) and two students (ids 5 and 6). -/
def sampleUsers : List User :=
  [ { id := 2, name := "KIIT Robotics", email := "robo@kiit.in", password := "h2", phone := "2",
      role := "society", societyRequestStatus := "approved" },
    { id := 3, name := "Root", email := "root@kiit.in", password := "h3", phone := "3",
      role := "admin", societyRequestStatus := "none" },
    { id := 5, name := "Asha", email := "asha@kiit.in", password := "h5", phone := "5",
      role := "student", societyRequestStatus := "none" },
    { id := 6, name := "Ravi", email := "ravi@kiit.in", password := "h6", phone := "6",
      role := "student", societyRequestStatus := "none" } ]

/-- A store with the sample users, the sample event and nothing else. -/
def sampleStore : Store :=
  { users := sampleUsers, events := [sampleEvent], registers := [], notifications := [],
    societies := [], nextId := 10 }

/-- The sample store after student 5 registered for the sample event. -/
def registeredStore : Store :=
  { sampleStore with registers := [{ id := 10, userId := 5, eventId := 1 }], nextId := 11 }

/-- Token identity of student 5. -/
def studentClaims : Claims := { id := 5, role := "student", name := "Asha", email := "asha@kiit.in" }

/-- Token identity of the society account 2. -/
def societyClaims : Claims :=
  { id := 2, role := "society", name := "KIIT Robotics", email := "robo@kiit.in" }

/-- Token identity of the admin 3. -/
def adminClaims : Claims := { id := 3, role := "admin", name := "Root", email := "root@kiit.in" }

/-- A complete body for `POST /events/add`; society 99 does not exist. -/
def sampleInput : EventInput :=
  { title := some "Fest", date := some "2025-02-01", time := some "18:00",
    location := some "Campus 3", description := some "Annual fest", guest := some "Alumni",
    registrationStatus := some "upcoming", coverImageURL := some "http://img/2",
    eventCategory := some "cultural", societyId := some 99 }

/-- A body for `PUT /events/:eventId` that renames the event. -/
def renameUpdates : EventUpdates :=
  { title := some "Cancelled", date := none, time := none, location := none,
    description := none, guest := none, registrationStatus := none, coverImageURL := none,
    eventCategory := none, societyId := none }

/-- A body for `PUT /events/:eventId` that renames the event and also carries a
`societyId` key naming student 5 as the owner. -/
def hijackUpdates : EventUpdates :=
  { title := some "Cancelled", date := none, time := none, location := none,
    description := none, guest := none, registrationStatus := none, coverImageURL := none,
    eventCategory := none, societyId := some 5 }

/-- The sample store with four notifications: a read and an unread one of student 5,
a read and an unread one of student 6. -/
def inboxStore : Store :=
  { sampleStore with
    notifications :=
      [ { id := 20, userId := 5, message := "read by 5", link := none, isRead := true },
        { id := 21, userId := 5, message := "new for 5", link := none, isRead := false },
        { id := 22, userId := 6, message := "read by 6", link := none, isRead := true },
        { id := 23, userId := 6, message := "new for 6", link := none, isRead := false } ],
    nextId := 30 }

/-- A date parser that knows four texts; every other text is an Invalid Date. -/
def sampleParse (text : String) : Option Int :=
  if text = "2025-01-10 10:00" then some 1736503200000
  else if text = "2025-02-01 18:00" then some 1738432800000
  else if text = "2024-12-01 09:00" then some 1733043600000
  else none

/-- Midnight of 2025-01-01, in milliseconds. -/
def sampleNow : Int := 1735689600000

/-- Five events: the sample event, a second one at the same date and time, a past
one, a later one and one whose date does not parse. -/
def calendarStore : Store :=
  { sampleStore with
    events :=
      [ { sampleEvent with id := 4, title := "Finale", date := "2025-02-01", time := "18:00" },
        sampleEvent,
        { sampleEvent with id := 2, title := "Workshop" },
        { sampleEvent with id := 3, title := "Opening", date := "2024-12-01", time := "09:00",
                           registrationStatus := "closed" },
        { sampleEvent with id := 5, title := "Surprise", date := "soon", time := "ish" } ] }

/-- Token verification that accepts three tokens and rejects every other text. -/
def sampleVerify (token : String) : Option Claims :=
  if token = "admin-token" then some adminClaims
  else if token = "student-token" then some studentClaims
  else if token = "society-token" then some societyClaims
  else none

/-- The sample store with the approved society 40 of account 2 and the pending
request 41 of student 5. -/
def societyStore : Store :=
  { sampleStore with
    users :=
      [ { id := 2, name := "KIIT Robotics", email := "robo@kiit.in", password := "h2",
          phone := "2", role := "society", societyRequestStatus := "approved" },
        { id := 3, name := "Root", email := "root@kiit.in", password := "h3", phone := "3",
          role := "admin", societyRequestStatus := "none" },
        { id := 5, name := "Asha", email := "asha@kiit.in", password := "h5", phone := "5",
          role := "student", societyRequestStatus := "pending" },
        { id := 6, name := "Ravi", email := "ravi@kiit.in", password := "h6", phone := "6",
          role := "student", societyRequestStatus := "none" } ],
    societies :=
      [ { id := 40, name := "KIIT Robotics", description := some "Robots", president := 2,
          email := "robo@kiit.in", phone := some "2", requestStatus := .text "approved" },
        { id := 41, name := "Chess Club", description := none, president := 5,
          email := "chess@kiit.in", phone := none, requestStatus := .text "pending" } ],
    nextId := 50 }

/-- The society store after student 5 sent `PUT /users/update` with the body
`{ name: "" }`. -/
def blankNameStore : Store :=
  (userUpdate noFaults societyStore studentClaims (some "") none).1

/-! ## Properties -/

/-- C1: a caller whose role is "society" or "admin" gets 403 from
`POST /registers/:eventId`, whatever the store, the event id and the store failures,
and the store (so the Registration and Notification rows) is unchanged. -/
theorem C1_register_forbidden_for_society_and_admin (f : Faults) (s : Store) (user : Claims)
    (eventId : Id) (hrole : user.role = "society" ∨ user.role = "admin") :
    (registerPost f s user eventId).2.status = 403 ∧
    (registerPost f s user eventId).1 = s ∧
    (registerPost f s user eventId).1.registers = s.registers ∧
    (registerPost f s user eventId).1.notifications = s.notifications := by
  simp [registerPost, hrole]

theorem C1_register_forbidden_for_society_and_admin_witness :
    (registerPost noFaults sampleStore adminClaims 1).2.status = 403 ∧
    (registerPost noFaults sampleStore adminClaims 1).1 = sampleStore ∧
    (registerPost noFaults sampleStore adminClaims 1).1.registers = sampleStore.registers ∧
    (registerPost noFaults sampleStore adminClaims 1).1.notifications =
      sampleStore.notifications :=
  C1_register_forbidden_for_society_and_admin noFaults sampleStore adminClaims 1
    (Or.inr (by decide))

/-! ### The unique (userId, eventId) pair -/

theorem findRegister_eq_none_iff (s : Store) (userId eventId : Id) :
    s.findRegister userId eventId = none ↔
      ∀ r ∈ s.registers, ¬ (r.userId = userId ∧ r.eventId = eventId) := by
  simp [Store.findRegister]

theorem findRegister_isSome_of_mem (s : Store) (userId eventId : Id) (r : Register)
    (hr : r ∈ s.registers) (hu : r.userId = userId) (he : r.eventId = eventId) :
    ∃ r0, s.findRegister userId eventId = some r0 := by
  cases h : s.findRegister userId eventId with
  | some r0 => exact ⟨r0, rfl⟩
  | none => exact absurd ⟨hu, he⟩ ((findRegister_eq_none_iff s userId eventId).1 h r hr)

theorem saveRegister_ok (s s1 : Store) (userId eventId : Id) (r : Register)
    (h : s.saveRegister userId eventId = .ok (s1, r)) :
    (∀ a ∈ s.registers, ¬ (a.userId = userId ∧ a.eventId = eventId)) ∧
    r = { id := s.nextId, userId := userId, eventId := eventId } ∧
    s1 = { s with registers := s.registers ++ [r], nextId := s.nextId + 1 } := by
  unfold Store.saveRegister at h
  split at h
  · cases h
  · rename_i hany
    injection h with h
    injection h with h1 h2
    subst h2
    subst h1
    refine ⟨?_, rfl, rfl⟩
    simpa using hany

theorem saveRegister_unique (s s1 : Store) (userId eventId : Id) (r : Register)
    (hu : UniquePairs s.registers) (h : s.saveRegister userId eventId = .ok (s1, r)) :
    UniquePairs s1.registers := by
  obtain ⟨hfree, hr, hs1⟩ := saveRegister_ok s s1 userId eventId r h
  subst hs1
  unfold UniquePairs at *
  simp only [List.pairwise_append, List.pairwise_cons, List.Pairwise.nil, List.mem_singleton,
    List.not_mem_nil, false_implies, implies_true, and_true, true_and]
  refine ⟨hu, ?_⟩
  intro a ha b hb
  subst hb
  subst hr
  exact hfree a ha

theorem saveNotification_registers (s : Store) (userId : Id) (m : String) (l : Option String)
    (b : Bool) : (s.saveNotification userId m l b).1.registers = s.registers := rfl

theorem registerStep_unique (fault : Option Fault) (user : Claims) (eventId : Id) (s : Store)
    (pc : RegPc) (hu : UniquePairs s.registers) :
    UniquePairs (registerStep fault user eventId s pc).1.registers := by
  cases pc with
  | start =>
    simp only [registerStep]
    split
    · exact hu
    · split
      · exact hu
      · split <;> exact hu
  | loaded event =>
    simp only [registerStep]
    split
    · exact hu
    · split <;> exact hu
  | checked event =>
    simp only [registerStep]
    split
    · exact hu
    · split
      · exact hu
      · rename_i s1 registration hsave
        exact saveRegister_unique s s1 user.id eventId registration hu hsave
  | saved event registration =>
    simp only [registerStep]
    split <;> exact hu
  | done r => exact hu

theorem registerSteps_eq_registerPost (f : Faults) (s : Store) (user : Claims) (eventId : Id) :
    registerSteps f user eventId s =
      ((registerPost f s user eventId).1, .done (registerPost f s user eventId).2) := by
  unfold registerSteps registerPost
  by_cases hrole : user.role = "society" ∨ user.role = "admin"
  · simp [registerStep, hrole]
  · cases h0 : f 0 with
    | some e => simp [registerStep, hrole, h0]
    | none =>
      cases hev : s.findEventById eventId with
      | none => simp [registerStep, hrole, h0, hev]
      | some event =>
        cases h1 : f 1 with
        | some e => simp [registerStep, hrole, h0, hev, h1]
        | none =>
          cases hreg : s.findRegister user.id eventId with
          | some r => simp [registerStep, hrole, h0, hev, h1, hreg]
          | none =>
            cases h2 : f 2 with
            | some e => simp [registerStep, hrole, h0, hev, h1, hreg, h2]
            | none =>
              cases hsave : s.saveRegister user.id eventId with
              | error e => simp [registerStep, hrole, h0, hev, h1, hreg, h2, hsave]
              | ok p =>
                obtain ⟨s1, registration⟩ := p
                cases h3 : f 3 with
                | some e => simp [registerStep, hrole, h0, hev, h1, hreg, h2, hsave, h3]
                | none => simp [registerStep, hrole, h0, hev, h1, hreg, h2, hsave, h3]

theorem registerPost_unique (f : Faults) (s : Store) (user : Claims) (eventId : Id)
    (hu : UniquePairs s.registers) : UniquePairs (registerPost f s user eventId).1.registers := by
  have h := congrArg Prod.fst (registerSteps_eq_registerPost f s user eventId)
  simp only at h
  rw [← h]
  unfold registerSteps
  exact registerStep_unique _ _ _ _ _
    (registerStep_unique _ _ _ _ _
      (registerStep_unique _ _ _ _ _ (registerStep_unique _ _ _ _ _ hu)))

/-- C2: sequential uniqueness invariant of `POST /registers/:eventId`.  Whatever the
store failures, a call started on a store without two Registration rows for one
(userId, eventId) ends on such a store; and when a row for the caller's pair is
already stored, the event exists, the caller is neither society nor admin and the two
reads are answered, the call responds 400 "Already registered for this event" and
leaves the store as it was. -/
theorem C2_register_keeps_pairs_unique (f : Faults) (s : Store) (user : Claims) (eventId : Id) :
    (UniquePairs s.registers → UniquePairs (registerPost f s user eventId).1.registers) ∧
    (∀ r ∈ s.registers, r.userId = user.id → r.eventId = eventId →
      (∃ e ∈ s.events, e.id = eventId) →
      user.role ≠ "society" → user.role ≠ "admin" → f 0 = none → f 1 = none →
        (registerPost f s user eventId).2 = ⟨400, .message "Already registered for this event"⟩ ∧
        (registerPost f s user eventId).1 = s) := by
  refine ⟨registerPost_unique f s user eventId, ?_⟩
  intro r hr hru hre hev hs ha h0 h1
  obtain ⟨r0, hfind⟩ := findRegister_isSome_of_mem s user.id eventId r hr hru hre
  obtain ⟨e, he, hid⟩ := hev
  have hsome : ∃ e0, s.findEventById eventId = some e0 := by
    cases h : s.findEventById eventId with
    | some e0 => exact ⟨e0, rfl⟩
    | none =>
      simp [Store.findEventById] at h
      exact absurd hid (h e he)
  obtain ⟨e0, hfe⟩ := hsome
  simp [registerPost, hs, ha, h0, h1, hfe, hfind]

theorem C2_register_keeps_pairs_unique_witness :
    (UniquePairs registeredStore.registers →
      UniquePairs (registerPost noFaults registeredStore studentClaims 1).1.registers) ∧
    (registerPost noFaults registeredStore studentClaims 1).2 =
      ⟨400, .message "Already registered for this event"⟩ ∧
    (registerPost noFaults registeredStore studentClaims 1).1 = registeredStore :=
  ⟨(C2_register_keeps_pairs_unique noFaults registeredStore studentClaims 1).1,
   (C2_register_keeps_pairs_unique noFaults registeredStore studentClaims 1).2
     ⟨10, 5, 1⟩ (by decide) rfl rfl ⟨sampleEvent, by decide, rfl⟩ (by decide) (by decide) rfl rfl⟩

theorem concurrentStep_unique (user : Claims) (eventId : Id) (c : Concurrent) (i : Nat)
    (hu : UniquePairs c.store.registers) :
    UniquePairs (concurrentStep user eventId c i).store.registers := by
  unfold concurrentStep
  split
  · exact hu
  · exact registerStep_unique _ _ _ _ _ hu

theorem concurrentRun_unique (user : Claims) (eventId : Id) (schedule : List Nat) :
    ∀ c : Concurrent, UniquePairs c.store.registers →
      UniquePairs (concurrentRun user eventId c schedule).store.registers := by
  induction schedule with
  | nil => intro c hu; exact hu
  | cons i rest ih =>
    intro c hu
    exact ih (concurrentStep user eventId c i) (concurrentStep_unique user eventId c i hu)

theorem registerStep_duplicate_key (user : Claims) (eventId : Id) (s : Store) (event : Event)
    (r : Register) (hr : r ∈ s.registers) (hu : r.userId = user.id) (he : r.eventId = eventId) :
    registerStep none user eventId s (.checked event) = (s, .done registerServerError) := by
  have hany : s.registers.any (fun a => a.userId == user.id && a.eventId == eventId) = true := by
    simp only [List.any_eq_true, Bool.and_eq_true, beq_iff_eq]
    exact ⟨r, hr, hu, he⟩
  simp [registerStep, Store.saveRegister, hany]

/-- C3: the insert of a pair that the pre-check did not find but that is stored by
the time of `registration.save()` is refused by the unique index, and the handler
answers 500 "Server error", not 400.  Student 5 passes the role check, the event
lookup and the pre-check on the sample store; the row (5, 1) is then stored by
another request; the insert step of the first request ends in the `catch` block. -/
theorem C3_duplicate_key_is_answered_500 :
    registerStep none studentClaims 1 sampleStore .start = (sampleStore, .loaded sampleEvent) ∧
    registerStep none studentClaims 1 sampleStore (.loaded sampleEvent) =
      (sampleStore, .checked sampleEvent) ∧
    (registeredStore.saveRegister 5 1).toOption = none ∧
    registerStep none studentClaims 1 registeredStore (.checked sampleEvent) =
      (registeredStore, .done ⟨500, .message "Server error"⟩) := by
  decide

/-- C4: two concurrent identical requests of student 5 for event 1, scheduled
alternately: both pass the pre-check before either inserts, the first insert
succeeds (201) and the second is refused by the unique index and answered 500, not
400; the store ends with the single row (5, 1). -/
theorem C4_concurrent_duplicate_is_answered_500 :
    (concurrentRun studentClaims 1 ⟨sampleStore, [.start, .start]⟩
      [0, 1, 0, 1, 0, 1, 0, 1]).statuses = [some 201, some 500] ∧
    (concurrentRun studentClaims 1 ⟨sampleStore, [.start, .start]⟩
      [0, 1, 0, 1, 0, 1, 0, 1]).store.registers = [⟨10, 5, 1⟩] := by
  decide

/-! ### Successful registration -/

/-- C5 as stated fails: the notification that a successful registration creates
carries no link at all, so none that refers to the event. -/
theorem C5_registration_notification_has_no_link :
    (registerPost noFaults sampleStore studentClaims 1).2.status = 201 ∧
    (registerPost noFaults sampleStore studentClaims 1).1.notifications =
      [⟨11, 5, "You have successfully registered for \"Hackathon\".", none, false⟩] ∧
    ∀ n ∈ (registerPost noFaults sampleStore studentClaims 1).1.notifications,
      n.link = none := by
  decide

/-- C5 (amended): for a caller that is neither society nor admin, an event `e` stored
under `eventId`, no stored registration of the caller for it and no store failure,
`POST /registers/:eventId` responds 201 with the registration and the notification,
appends exactly one Registration row (caller.id, eventId) and exactly one
Notification row, addressed to the caller, unread, whose message quotes `e.title` and
whose link is not set; users, events and societies are untouched. -/
theorem C5_register_success (s : Store) (user : Claims) (eventId : Id) (e : Event)
    (hs : user.role ≠ "society") (ha : user.role ≠ "admin")
    (he : s.findEventById eventId = some e)
    (hfree : ∀ r ∈ s.registers, ¬ (r.userId = user.id ∧ r.eventId = eventId)) :
    ∃ (registration : Register) (notification : Notification),
      (registerPost noFaults s user eventId).2 =
        ⟨201, .registered "Registered successfully" registration notification⟩ ∧
      (registerPost noFaults s user eventId).1.registers = s.registers ++ [registration] ∧
      registration.userId = user.id ∧ registration.eventId = eventId ∧
      (registerPost noFaults s user eventId).1.notifications =
        s.notifications ++ [notification] ∧
      notification.userId = user.id ∧
      notification.message = "You have successfully registered for \"" ++ e.title ++ "\"." ∧
      notification.isRead = false ∧
      notification.link = none ∧
      (registerPost noFaults s user eventId).1.users = s.users ∧
      (registerPost noFaults s user eventId).1.events = s.events ∧
      (registerPost noFaults s user eventId).1.societies = s.societies := by
  have hnone : s.findRegister user.id eventId = none :=
    (findRegister_eq_none_iff s user.id eventId).2 hfree
  have hany : s.registers.any (fun r => r.userId == user.id && r.eventId == eventId) = false := by
    simpa using hfree
  refine ⟨⟨s.nextId, user.id, eventId⟩,
    ⟨s.nextId + 1, user.id, "You have successfully registered for \"" ++ e.title ++ "\".",
      none, false⟩, ?_⟩
  simp [registerPost, noFaults, hs, ha, he, hnone, Store.saveRegister, hany,
    Store.saveNotification]

theorem C5_register_success_witness :
    ∃ (registration : Register) (notification : Notification),
      (registerPost noFaults sampleStore studentClaims 1).2 =
        ⟨201, .registered "Registered successfully" registration notification⟩ ∧
      (registerPost noFaults sampleStore studentClaims 1).1.registers =
        sampleStore.registers ++ [registration] ∧
      registration.userId = studentClaims.id ∧ registration.eventId = 1 ∧
      (registerPost noFaults sampleStore studentClaims 1).1.notifications =
        sampleStore.notifications ++ [notification] ∧
      notification.userId = studentClaims.id ∧
      notification.message =
        "You have successfully registered for \"" ++ sampleEvent.title ++ "\"." ∧
      notification.isRead = false ∧
      notification.link = none ∧
      (registerPost noFaults sampleStore studentClaims 1).1.users = sampleStore.users ∧
      (registerPost noFaults sampleStore studentClaims 1).1.events = sampleStore.events ∧
      (registerPost noFaults sampleStore studentClaims 1).1.societies = sampleStore.societies :=
  C5_register_success sampleStore studentClaims 1 sampleEvent (by decide) (by decide) rfl
    (by decide)

/-! ### Event creation and its fan-out -/

theorem notificationRows_length (docs : List NotificationDoc) :
    ∀ start : Id, (notificationRows start docs).length = docs.length := by
  induction docs with
  | nil => intro start; rfl
  | cons d ds ih => intro start; simp [notificationRows, ih]

theorem notificationRows_map_userId (docs : List NotificationDoc) :
    ∀ start : Id, (notificationRows start docs).map (fun n => n.userId) =
      docs.map (fun d => d.userId) := by
  induction docs with
  | nil => intro start; rfl
  | cons d ds ih => intro start; simp [notificationRows, ih]

theorem notificationRows_mem (docs : List NotificationDoc) :
    ∀ (start : Id) (n : Notification), n ∈ notificationRows start docs →
      ∃ d ∈ docs, n.userId = d.userId ∧ n.message = d.message ∧ n.link = d.link ∧
        n.isRead = false := by
  induction docs with
  | nil => intro start n hn; simp [notificationRows] at hn
  | cons d ds ih =>
    intro start n hn
    simp only [notificationRows, List.mem_cons] at hn
    rcases hn with hn | hn
    · subst hn
      exact ⟨d, List.mem_cons_self _ _, rfl, rfl, rfl, rfl⟩
    · obtain ⟨d1, hd1, h⟩ := ih (start + 1) n hn
      exact ⟨d1, List.mem_cons_of_mem _ hd1, h⟩

theorem saveNewEvent_some (s s1 : Store) (b : EventInput) (societyId : Id) (newEvent : Event)
    (h : s.saveNewEvent b societyId = some (s1, newEvent)) :
    s1.events = s.events ++ [newEvent] ∧ s1.users = s.users ∧
    s1.notifications = s.notifications ∧ s1.registers = s.registers ∧
    s1.societies = s.societies ∧ newEvent.id = s.nextId ∧
    newEvent.societyId = some societyId := by
  simp only [Store.saveNewEvent, Option.bind_eq_bind, Option.pure_def, Option.bind_eq_some,
    Option.some.injEq, Prod.mk.injEq] at h
  obtain ⟨_, _, _, _, _, _, _, _, _, _, _, _, _, _, _, _, _, _, h1, h2⟩ := h
  subst h1
  subst h2
  exact ⟨rfl, rfl, rfl, rfl, rfl, rfl, rfl⟩

theorem count_userId_eq_one (users : List User) (added : List Notification)
    (hmap : added.map (fun n => n.userId) = users.map (fun u => u.id))
    (hnd : (users.map (fun u => u.id)).Nodup) (u : User) (hu : u ∈ users) :
    added.countP (fun n => n.userId == u.id) = 1 := by
  have h1 : (users.map (fun u => u.id)).count u.id = 1 :=
    List.count_eq_one_of_mem hnd (List.mem_map_of_mem _ hu)
  rw [← hmap, List.count, List.countP_map] at h1
  simpa [Function.comp_def] using h1

/-- C6: a `POST /events/add` that answers 201 (which only an admin gets) on a store
with N users appends exactly one Event row, the one sent back, and exactly N
Notification rows: the k-th added row is addressed to the k-th user, and every added
row links to "/events/<id of the new event>"; when user ids are distinct, each user
is the recipient of exactly one added row. -/
theorem C6_event_add_notifies_every_user (f : Faults) (s : Store) (user : Claims)
    (b : EventInput) (h : (eventAdd f s user b).2.status = 201) :
    user.role = "admin" ∧
    ∃ (newEvent : Event) (added : List Notification),
      (eventAdd f s user b).2.body = .eventSaved "Event saved successfully" newEvent ∧
      (eventAdd f s user b).1.events = s.events ++ [newEvent] ∧
      (eventAdd f s user b).1.notifications = s.notifications ++ added ∧
      added.length = s.users.length ∧
      added.map (fun n => n.userId) = s.users.map (fun u => u.id) ∧
      (∀ n ∈ added, n.link = some ("/events/" ++ toString newEvent.id)) ∧
      ((s.users.map (fun u => u.id)).Nodup →
        ∀ u ∈ s.users, added.countP (fun n => n.userId == u.id) = 1) := by
  unfold eventAdd at h ⊢
  by_cases hrole : user.role = "admin"
  · refine ⟨hrole, ?_⟩
    simp only [hrole, ne_eq, not_true_eq_false, ite_false] at h ⊢
    cases hsoc : b.societyId with
    | none => simp [hsoc] at h
    | some societyId =>
      cases h0 : f 0 with
      | some e => simp [hsoc, h0, eventAddServerError] at h
      | none =>
        cases hsave : s.saveNewEvent b societyId with
        | none => simp [hsoc, h0, hsave, eventAddServerError] at h
        | some p =>
          obtain ⟨s1, newEvent⟩ := p
          obtain ⟨hev, hus, hno, _, _, _, _⟩ := saveNewEvent_some s s1 b societyId newEvent hsave
          cases h1 : f 1 with
          | some e => simp [hsoc, h0, hsave, h1, eventAddServerError] at h
          | none =>
            cases h2 : f 2 with
            | some e => simp [hsoc, h0, hsave, h1, h2, eventAddServerError] at h
            | none =>
              simp only [hsoc, h0, hsave, h1, h2]
              refine ⟨newEvent, notificationRows s1.nextId (s1.users.map (fun u =>
                { userId := u.id
                  message := "🎉 New event \"" ++ newEvent.title ++ "\" has been added!"
                  link := some ("/events/" ++ toString newEvent.id) })), rfl, ?_, ?_, ?_, ?_, ?_, ?_⟩
              · simpa [Store.insertNotifications] using hev
              · simp [Store.insertNotifications, hno]
              · simp [notificationRows_length, hus]
              · simp [notificationRows_map_userId, hus, Function.comp_def]
              · intro n hn
                obtain ⟨d, hd, _, _, hl, _⟩ := notificationRows_mem _ _ n hn
                simp only [List.mem_map] at hd
                obtain ⟨u, _, hu⟩ := hd
                rw [hl, ← hu]
              · intro hnd u hu
                refine count_userId_eq_one s.users _ ?_ hnd u hu
                simp [notificationRows_map_userId, hus, Function.comp_def]
  · simp [hrole] at h

theorem C6_event_add_notifies_every_user_witness :
    (eventAdd noFaults sampleStore adminClaims sampleInput).2.status = 201 ∧
    adminClaims.role = "admin" ∧
    ∃ (newEvent : Event) (added : List Notification),
      (eventAdd noFaults sampleStore adminClaims sampleInput).2.body =
        .eventSaved "Event saved successfully" newEvent ∧
      (eventAdd noFaults sampleStore adminClaims sampleInput).1.events =
        sampleStore.events ++ [newEvent] ∧
      (eventAdd noFaults sampleStore adminClaims sampleInput).1.notifications =
        sampleStore.notifications ++ added ∧
      added.length = sampleStore.users.length ∧
      added.map (fun n => n.userId) = sampleStore.users.map (fun u => u.id) ∧
      (∀ n ∈ added, n.link = some ("/events/" ++ toString newEvent.id)) ∧
      ((sampleStore.users.map (fun u => u.id)).Nodup →
        ∀ u ∈ sampleStore.users, added.countP (fun n => n.userId == u.id) = 1) :=
  ⟨by decide, C6_event_add_notifies_every_user noFaults sampleStore adminClaims sampleInput
    (by decide)⟩

/-- C7: an admin calls `POST /events/add` with societyId 99, which no user carries,
and with societyId 5, the id of a student: both calls are answered 201 and store the
event, where the claim requires the societyId to be the id of an existing user whose
role is "society". -/
theorem C7_event_created_for_unknown_society :
    sampleInput.societyId = some 99 ∧
    (∀ u ∈ sampleStore.users, u.id ≠ 99) ∧
    (eventAdd noFaults sampleStore adminClaims sampleInput).2.status = 201 ∧
    (eventAdd noFaults sampleStore adminClaims sampleInput).1.events.length =
      sampleStore.events.length + 1 ∧
    (sampleStore.findUserById 5).map (fun u => u.role) = some "student" ∧
    (eventAdd noFaults sampleStore adminClaims { sampleInput with societyId := some 5 }).2.status =
      201 ∧
    (eventAdd noFaults sampleStore adminClaims
      { sampleInput with societyId := some 5 }).1.events.length =
      sampleStore.events.length + 1 := by
  decide

/-- The two guards `POST /events/add` does have: the Event rows change only if the
caller's role is "admin" and the body carries a societyId; a non-admin caller gets 403
and an admin without societyId gets 400, in both cases with the store unchanged. -/
theorem eventAdd_guards (f : Faults) (s : Store) (user : Claims) (b : EventInput) :
    ((eventAdd f s user b).1.events ≠ s.events →
      user.role = "admin" ∧ ∃ societyId, b.societyId = some societyId) ∧
    (user.role ≠ "admin" →
      eventAdd f s user b = (s, ⟨403, .message "Only admins can create events"⟩)) ∧
    (user.role = "admin" → b.societyId = none →
      eventAdd f s user b =
        (s, ⟨400, .message "societyId is required to associate the event"⟩)) := by
  refine ⟨?_, ?_, ?_⟩
  · intro hch
    by_cases hrole : user.role = "admin"
    · refine ⟨hrole, ?_⟩
      cases hsoc : b.societyId with
      | some societyId => exact ⟨societyId, rfl⟩
      | none => exact absurd (by simp [eventAdd, hrole, hsoc]) hch
    · exact absurd (by simp [eventAdd, hrole]) hch
  · intro hrole
    simp [eventAdd, hrole]
  · intro hrole hsoc
    simp [eventAdd, hrole, hsoc]

theorem eventAdd_guards_example :
    ((eventAdd noFaults sampleStore adminClaims sampleInput).1.events ≠ sampleStore.events →
      adminClaims.role = "admin" ∧ ∃ societyId, sampleInput.societyId = some societyId) ∧
    eventAdd noFaults sampleStore studentClaims sampleInput =
      (sampleStore, ⟨403, .message "Only admins can create events"⟩) ∧
    eventAdd noFaults sampleStore adminClaims { sampleInput with societyId := none } =
      (sampleStore, ⟨400, .message "societyId is required to associate the event"⟩) :=
  ⟨(eventAdd_guards noFaults sampleStore adminClaims sampleInput).1,
   (eventAdd_guards noFaults sampleStore studentClaims sampleInput).2.1 (by decide),
   (eventAdd_guards noFaults sampleStore adminClaims
      { sampleInput with societyId := none }).2.2 (by decide) rfl⟩

/-! ### Who may update, delete and inspect an event -/

/-- C8: a student (id 5, not the owner) calls `PUT /events/1` with a new title: the
handler answers 200 and the stored event carries the new title, where the claim
requires 403 and an unchanged event. -/
theorem C8_student_updates_event :
    studentClaims.role = "student" ∧ sampleEvent.societyId ≠ some studentClaims.id ∧
    (eventPut noFaults sampleStore studentClaims 1 renameUpdates).2 =
      ⟨200, .eventUpdated "Event updated successfully" { sampleEvent with title := "Cancelled" }⟩ ∧
    (eventPut noFaults sampleStore studentClaims 1 renameUpdates).1.events =
      [{ sampleEvent with title := "Cancelled" }] := by
  decide

theorem findEventById_of_mem (s : Store) (e : Event) (he : e ∈ s.events)
    (hnd : (s.events.map (fun x => x.id)).Nodup) : s.findEventById e.id = some e := by
  unfold Store.findEventById
  generalize s.events = l at he hnd
  induction l with
  | nil => cases he
  | cons a l ih =>
    simp only [List.map_cons, List.nodup_cons, List.mem_map, not_exists, not_and] at hnd
    rcases List.mem_cons.1 he with h | h
    · subst h
      simp
    · have hne : a.id ≠ e.id := fun heq => hnd.1 e h heq.symm
      have hb : (a.id == e.id) = false := by simpa using hne
      rw [List.find?_cons, hb]
      exact ih h hnd.2

theorem findEventById_none_of_absent (s : Store) (id : Id) (h : ∀ e ∈ s.events, e.id ≠ id) :
    s.findEventById id = none := by
  simpa [Store.findEventById] using h

theorem mem_eraseP_id (l : List Event) (e : Event) (he : e ∈ l)
    (hnd : (l.map (fun x => x.id)).Nodup) (x : Event) :
    x ∈ l.eraseP (fun y => y.id == e.id) ↔ x ∈ l ∧ x ≠ e := by
  induction l with
  | nil => cases he
  | cons a l ih =>
    simp only [List.map_cons, List.nodup_cons, List.mem_map, not_exists, not_and] at hnd
    rcases List.mem_cons.1 he with h | h
    · subst h
      have hx : x ∈ l → x ≠ e := fun hxl heq => hnd.1 x hxl (by rw [heq])
      simp only [List.eraseP_cons, beq_self_eq_true, cond_true, List.mem_cons]
      constructor
      · intro hxl; exact ⟨Or.inr hxl, hx hxl⟩
      · rintro ⟨hxe | hxl, hne⟩
        · exact absurd hxe hne
        · exact hxl
    · have hne : a.id ≠ e.id := fun heq => hnd.1 e h heq.symm
      have hae : a ≠ e := fun heq => hne (by rw [heq])
      have hb : (a.id == e.id) = false := by simpa using hne
      simp only [List.eraseP_cons, hb, cond_false, List.mem_cons, ih h hnd.2]
      constructor
      · rintro (hxa | ⟨hxl, hxe⟩)
        · exact ⟨Or.inl hxa, by rw [hxa]; exact hae⟩
        · exact ⟨Or.inr hxl, hxe⟩
      · rintro ⟨hxa | hxl, hxe⟩
        · exact Or.inl hxa
        · exact Or.inr ⟨hxl, hxe⟩

/-- C9: on a store whose event ids are distinct and that answers its operations,
`DELETE /events/:id` for a stored event `e` removes `e` (answer 200, every other
event kept) when the caller's role is "admin" or `e.societyId` is set and equals the
caller's id, and otherwise answers 403 and leaves the store unchanged; so `e` is
removed if and only if that condition holds.  For an id no event carries it answers
404 and leaves the store unchanged. -/
theorem C9_delete_event_authorization (s : Store) (user : Claims) :
    (∀ e ∈ s.events, (s.events.map (fun x => x.id)).Nodup →
      ((user.role = "admin" ∨ e.societyId = some user.id) →
        (eventDelete noFaults s user e.id).2 = ⟨200, .message "Event deleted successfully"⟩ ∧
        e ∉ (eventDelete noFaults s user e.id).1.events ∧
        ∀ x, x ∈ (eventDelete noFaults s user e.id).1.events ↔ x ∈ s.events ∧ x ≠ e) ∧
      (¬ (user.role = "admin" ∨ e.societyId = some user.id) →
        eventDelete noFaults s user e.id = (s, ⟨403, .message "Unauthorized"⟩)) ∧
      (e ∉ (eventDelete noFaults s user e.id).1.events ↔
        (user.role = "admin" ∨ e.societyId = some user.id))) ∧
    (∀ id, (∀ e ∈ s.events, e.id ≠ id) →
      eventDelete noFaults s user id = (s, ⟨404, .message "Event not found"⟩)) := by
  refine ⟨?_, ?_⟩
  · intro e he hnd
    have hfind := findEventById_of_mem s e he hnd
    have hallow : (user.role = "admin" ∨ e.societyId = some user.id) →
        (eventDelete noFaults s user e.id).2 = ⟨200, .message "Event deleted successfully"⟩ ∧
        e ∉ (eventDelete noFaults s user e.id).1.events ∧
        ∀ x, x ∈ (eventDelete noFaults s user e.id).1.events ↔ x ∈ s.events ∧ x ≠ e := by
      intro hok
      have hguard : ¬ (user.role ≠ "admin" ∧ (e.societyId = none ∨ e.societyId ≠ some user.id)) := by
        rintro ⟨h1, h2⟩
        rcases hok with h | h
        · exact h1 h
        · rcases h2 with h2 | h2
          · rw [h] at h2; cases h2
          · exact h2 h
      have hrun : eventDelete noFaults s user e.id =
          (s.deleteEventById e.id, ⟨200, .message "Event deleted successfully"⟩) := by
        simp only [eventDelete, noFaults, hfind]
        rw [if_neg hguard]
      rw [hrun]
      refine ⟨rfl, ?_, ?_⟩
      · intro hmem
        exact ((mem_eraseP_id s.events e he hnd e).1 hmem).2 rfl
      · intro x
        exact mem_eraseP_id s.events e he hnd x
    have hdeny : ¬ (user.role = "admin" ∨ e.societyId = some user.id) →
        eventDelete noFaults s user e.id = (s, ⟨403, .message "Unauthorized"⟩) := by
      intro hno
      have hguard : user.role ≠ "admin" ∧ (e.societyId = none ∨ e.societyId ≠ some user.id) :=
        ⟨fun h => hno (Or.inl h), Or.inr (fun h => hno (Or.inr h))⟩
      simp only [eventDelete, noFaults, hfind]
      rw [if_pos hguard]
    refine ⟨hallow, hdeny, ?_⟩
    constructor
    · intro hgone
      by_contra hno
      rw [hdeny hno] at hgone
      exact hgone he
    · intro hok
      exact (hallow hok).2.1
  · intro id habs
    simp only [eventDelete, noFaults, findEventById_none_of_absent s id habs]

theorem C9_delete_event_authorization_witness :
    (eventDelete noFaults sampleStore societyClaims sampleEvent.id).2 =
      ⟨200, .message "Event deleted successfully"⟩ ∧
    sampleEvent ∉ (eventDelete noFaults sampleStore societyClaims sampleEvent.id).1.events ∧
    eventDelete noFaults sampleStore studentClaims sampleEvent.id =
      (sampleStore, ⟨403, .message "Unauthorized"⟩) ∧
    eventDelete noFaults sampleStore adminClaims 77 =
      (sampleStore, ⟨404, .message "Event not found"⟩) :=
  ⟨(((C9_delete_event_authorization sampleStore societyClaims).1 sampleEvent (by decide)
      (by decide)).1 (Or.inr (by decide))).1,
   (((C9_delete_event_authorization sampleStore societyClaims).1 sampleEvent (by decide)
      (by decide)).1 (Or.inr (by decide))).2.1,
   ((C9_delete_event_authorization sampleStore studentClaims).1 sampleEvent (by decide)
      (by decide)).2.1 (by decide),
   (C9_delete_event_authorization sampleStore adminClaims).2 77 (by decide)⟩

/-- C10: a student calls `GET /registers/1/registrations` for an event the student
does not own: the handler answers 200 with the registrant list (here the student's own
registration with name and email), where the claim requires 403. -/
theorem C10_student_reads_registrations :
    studentClaims.role = "student" ∧ sampleEvent.societyId ≠ some studentClaims.id ∧
    registrationsGet noFaults registeredStore studentClaims 1 =
      ⟨200, .registrations [⟨10, some (5, "Asha", "asha@kiit.in"), 1⟩]⟩ := by
  decide

/-! ### The allow-list of `PUT /events/:eventId` -/

theorem onlyAllowedChanges_refl (updates : EventUpdates) (e : Event) :
    OnlyAllowedChanges updates e e :=
  ⟨rfl, rfl, fun _ => rfl, fun _ => rfl, fun _ => rfl, fun _ => rfl, fun _ => rfl, fun _ => rfl,
   fun _ => rfl, fun _ => rfl, fun _ => rfl⟩

theorem onlyAllowedChanges_applyUpdates (updates : EventUpdates) (e : Event) :
    OnlyAllowedChanges updates e (applyUpdates e updates) := by
  refine ⟨rfl, rfl, ?_, ?_, ?_, ?_, ?_, ?_, ?_, ?_, ?_⟩ <;>
    intro h <;> simp [applyUpdates, h]

theorem findEventById_some (s : Store) (id : Id) (e : Event)
    (h : s.findEventById id = some e) : e ∈ s.events ∧ e.id = id := by
  unfold Store.findEventById at h
  exact ⟨List.mem_of_find?_eq_some h, by simpa using List.find?_some h⟩

theorem replaceEvent_onlyAllowedChanges (s : Store) (updates : EventUpdates) (e : Event)
    (he : e ∈ s.events) (hnd : (s.events.map (fun x => x.id)).Nodup) :
    List.Forall₂ (OnlyAllowedChanges updates) s.events
      (s.replaceEvent (applyUpdates e updates)).events := by
  simp only [Store.replaceEvent, List.forall₂_map_right_iff, List.forall₂_same]
  intro x hx
  by_cases hid : x.id = e.id
  · have hxe : x = e := List.inj_on_of_nodup_map hnd hx he hid
    subst hxe
    have hb : (x.id == (applyUpdates x updates).id) = true := by simp [applyUpdates]
    rw [hb]
    exact onlyAllowedChanges_applyUpdates updates x
  · have hb : (x.id == (applyUpdates e updates).id) = false := by simpa [applyUpdates] using hid
    rw [hb]
    exact onlyAllowedChanges_refl updates x

/-- C11: whatever the caller, the body (a `societyId` key included) and the store
failures, `PUT /events/:eventId` on a store with distinct event ids leaves every
stored event with its id and its societyId, changes no field of the allow-list that
the body does not define, keeps the number and order of the events and touches no
other collection. -/
theorem C11_put_changes_only_allowed_fields (f : Faults) (s : Store) (user : Claims)
    (eventId : Id) (updates : EventUpdates) (hnd : (s.events.map (fun x => x.id)).Nodup) :
    List.Forall₂ (OnlyAllowedChanges updates) s.events
      (eventPut f s user eventId updates).1.events ∧
    (eventPut f s user eventId updates).1.events.map (fun e => e.societyId) =
      s.events.map (fun e => e.societyId) ∧
    (eventPut f s user eventId updates).1.users = s.users ∧
    (eventPut f s user eventId updates).1.registers = s.registers ∧
    (eventPut f s user eventId updates).1.notifications = s.notifications ∧
    (eventPut f s user eventId updates).1.societies = s.societies := by
  have hrefl : List.Forall₂ (OnlyAllowedChanges updates) s.events s.events :=
    List.forall₂_same.2 (fun x _ => onlyAllowedChanges_refl updates x)
  have hmain : List.Forall₂ (OnlyAllowedChanges updates) s.events
        (eventPut f s user eventId updates).1.events ∧
      (eventPut f s user eventId updates).1.users = s.users ∧
      (eventPut f s user eventId updates).1.registers = s.registers ∧
      (eventPut f s user eventId updates).1.notifications = s.notifications ∧
      (eventPut f s user eventId updates).1.societies = s.societies := by
    unfold eventPut
    split
    · exact ⟨hrefl, rfl, rfl, rfl, rfl⟩
    · split
      · exact ⟨hrefl, rfl, rfl, rfl, rfl⟩
      · rename_i event hfind
        split
        · exact ⟨hrefl, rfl, rfl, rfl, rfl⟩
        · split
          · exact ⟨hrefl, rfl, rfl, rfl, rfl⟩
          · dsimp only
            split
            · exact ⟨replaceEvent_onlyAllowedChanges s updates event
                (findEventById_some s eventId event hfind).1 hnd, rfl, rfl, rfl, rfl⟩
            · exact ⟨hrefl, rfl, rfl, rfl, rfl⟩
  refine ⟨hmain.1, ?_, hmain.2⟩
  have h := hmain.1
  generalize (eventPut f s user eventId updates).1.events = after at h
  generalize s.events = before at h
  induction h with
  | nil => rfl
  | cons hab _ ih => simp [hab.2.1, ih]

theorem C11_put_changes_only_allowed_fields_witness :
    List.Forall₂ (OnlyAllowedChanges hijackUpdates) sampleStore.events
      (eventPut noFaults sampleStore societyClaims 1 hijackUpdates).1.events ∧
    (eventPut noFaults sampleStore societyClaims 1 hijackUpdates).1.events.map
        (fun e => e.societyId) = sampleStore.events.map (fun e => e.societyId) ∧
    (eventPut noFaults sampleStore societyClaims 1 hijackUpdates).1.users = sampleStore.users ∧
    (eventPut noFaults sampleStore societyClaims 1 hijackUpdates).1.registers =
      sampleStore.registers ∧
    (eventPut noFaults sampleStore societyClaims 1 hijackUpdates).1.notifications =
      sampleStore.notifications ∧
    (eventPut noFaults sampleStore societyClaims 1 hijackUpdates).1.societies =
      sampleStore.societies :=
  C11_put_changes_only_allowed_fields noFaults sampleStore societyClaims 1 hijackUpdates
    (by decide)

/-! ### Notifications: read flag and bulk delete -/

theorem setReadFirst_idem (id : Id) (v : Bool) (l : List Notification) :
    setReadFirst id v (setReadFirst id v l) = setReadFirst id v l := by
  induction l with
  | nil => rfl
  | cons n ns ih =>
    by_cases h : (n.id == id) = true
    · simp [setReadFirst, h]
    · simp [setReadFirst, h, ih]

theorem find?_setReadFirst (id : Id) (v : Bool) (l : List Notification) :
    (setReadFirst id v l).find? (fun n => n.id == id) =
      (l.find? (fun n => n.id == id)).map (fun n => { n with isRead := v }) := by
  induction l with
  | nil => rfl
  | cons n ns ih =>
    by_cases h : (n.id == id) = true
    · simp [setReadFirst, h]
    · simp [setReadFirst, h, ih]

theorem findNotificationById_none_of_absent (s : Store) (id : Id)
    (h : ∀ n ∈ s.notifications, n.id ≠ id) : s.findNotificationById id = none := by
  simpa [Store.findNotificationById] using h

theorem notificationPatchRead_found (s : Store) (user : Claims) (id : Id) (isRead : Option Bool)
    (n : Notification) (h : s.findNotificationById id = some n) :
    notificationPatchRead noFaults s user id isRead =
      ({ s with notifications :=
            setReadFirst id (match isRead with | some v => v | none => true) s.notifications },
       ⟨200, .notification
          { n with isRead := (match isRead with | some v => v | none => true) }⟩) := by
  simp [notificationPatchRead, noFaults, Store.findNotificationByIdAndUpdate, h]

theorem notificationPatchRead_absent (s : Store) (user : Claims) (id : Id)
    (isRead : Option Bool) (h : s.findNotificationById id = none) :
    notificationPatchRead noFaults s user id isRead =
      (s, ⟨404, .message "Notification not found"⟩) := by
  simp [notificationPatchRead, noFaults, Store.findNotificationByIdAndUpdate, h]

/-- C16: `PATCH /notifications/:id/read` on a store that answers.  If no notification
has the id, the answer is 404 and the store is unchanged.  If the body omits `isRead`,
the notification stored under the id is answered and stored with `isRead = true`.
Applying the call a second time with the same id and body gives the same answer and
the same store as applying it once. -/
theorem C16_mark_read (s : Store) (user : Claims) (id : Id) (isRead : Option Bool) :
    ((∀ n ∈ s.notifications, n.id ≠ id) →
      notificationPatchRead noFaults s user id isRead =
        (s, ⟨404, .message "Notification not found"⟩)) ∧
    (∀ n, s.findNotificationById id = some n →
      (notificationPatchRead noFaults s user id none).2 =
        ⟨200, .notification { n with isRead := true }⟩ ∧
      (notificationPatchRead noFaults s user id none).1.findNotificationById id =
        some { n with isRead := true }) ∧
    notificationPatchRead noFaults (notificationPatchRead noFaults s user id isRead).1 user id
        isRead = notificationPatchRead noFaults s user id isRead := by
  refine ⟨?_, ?_, ?_⟩
  · intro habs
    exact notificationPatchRead_absent s user id isRead
      (findNotificationById_none_of_absent s id habs)
  · intro n hn
    rw [notificationPatchRead_found s user id none n hn]
    refine ⟨rfl, ?_⟩
    unfold Store.findNotificationById at hn ⊢
    simp only [find?_setReadFirst, hn, Option.map_some']
  · cases hfind : s.findNotificationById id with
    | none =>
      rw [notificationPatchRead_absent s user id isRead hfind]
      exact notificationPatchRead_absent s user id isRead hfind
    | some n =>
      rw [notificationPatchRead_found s user id isRead n hfind]
      have hfind2 : Store.findNotificationById
          { s with notifications :=
              setReadFirst id (match isRead with | some v => v | none => true) s.notifications }
          id = some { n with isRead := (match isRead with | some v => v | none => true) } := by
        unfold Store.findNotificationById at hfind ⊢
        simp only [find?_setReadFirst, hfind, Option.map_some']
      rw [notificationPatchRead_found _ user id isRead _ hfind2]
      simp only [setReadFirst_idem]

theorem C16_mark_read_witness :
    notificationPatchRead noFaults inboxStore studentClaims 99 none =
      (inboxStore, ⟨404, .message "Notification not found"⟩) ∧
    (notificationPatchRead noFaults inboxStore studentClaims 21 none).2 =
      ⟨200, .notification ⟨21, 5, "new for 5", none, true⟩⟩ ∧
    (notificationPatchRead noFaults inboxStore studentClaims 21 none).1.findNotificationById 21 =
      some ⟨21, 5, "new for 5", none, true⟩ ∧
    notificationPatchRead noFaults
        (notificationPatchRead noFaults inboxStore studentClaims 21 none).1 studentClaims 21 none =
      notificationPatchRead noFaults inboxStore studentClaims 21 none :=
  ⟨(C16_mark_read inboxStore studentClaims 99 none).1 (by decide),
   ((C16_mark_read inboxStore studentClaims 21 none).2.1
      ⟨21, 5, "new for 5", none, false⟩ (by decide)).1,
   ((C16_mark_read inboxStore studentClaims 21 none).2.1
      ⟨21, 5, "new for 5", none, false⟩ (by decide)).2,
   (C16_mark_read inboxStore studentClaims 21 none).2.2⟩

/-- C17: `DELETE /notifications/delete-read` by caller `u` on a store that answers
leaves exactly the rows that are not (addressed to `u` and read), unchanged and in
their order: every row of another user and every unread row stays, no read row of
`u` remains, the reported count is the number of rows removed, and no other
collection is touched. -/
theorem C17_delete_read (s : Store) (user : Claims) :
    (notificationsDeleteRead noFaults s user).1.notifications =
      s.notifications.filter (fun n => !(n.userId == user.id && n.isRead)) ∧
    (∀ n, n ∈ (notificationsDeleteRead noFaults s user).1.notifications ↔
      n ∈ s.notifications ∧ ¬ (n.userId = user.id ∧ n.isRead = true)) ∧
    (∀ n ∈ s.notifications, n.userId ≠ user.id →
      n ∈ (notificationsDeleteRead noFaults s user).1.notifications) ∧
    (∀ n ∈ s.notifications, n.isRead = false →
      n ∈ (notificationsDeleteRead noFaults s user).1.notifications) ∧
    (∀ n ∈ (notificationsDeleteRead noFaults s user).1.notifications,
      ¬ (n.userId = user.id ∧ n.isRead = true)) ∧
    (notificationsDeleteRead noFaults s user).2 =
      ⟨200, .message ("Deleted " ++
        toString (s.notifications.length -
          (notificationsDeleteRead noFaults s user).1.notifications.length) ++
        " read notifications")⟩ ∧
    (notificationsDeleteRead noFaults s user).1.users = s.users ∧
    (notificationsDeleteRead noFaults s user).1.events = s.events ∧
    (notificationsDeleteRead noFaults s user).1.registers = s.registers ∧
    (notificationsDeleteRead noFaults s user).1.societies = s.societies := by
  have hmem : ∀ n, n ∈ (notificationsDeleteRead noFaults s user).1.notifications ↔
      n ∈ s.notifications ∧ ¬ (n.userId = user.id ∧ n.isRead = true) := by
    intro n
    simp only [notificationsDeleteRead, noFaults, Store.deleteReadNotifications,
      List.mem_filter, Bool.not_eq_true', Bool.and_eq_false_iff, beq_eq_false_iff_ne, ne_eq,
      and_congr_right_iff]
    intro _
    cases n.isRead <;> simp
  have hcount : s.notifications.countP (fun n => n.userId == user.id && n.isRead) =
      s.notifications.length -
        (s.notifications.filter (fun n => !(n.userId == user.id && n.isRead))).length := by
    have h := List.length_eq_countP_add_countP (fun n : Notification => n.userId == user.id && n.isRead)
      (l := s.notifications)
    rw [← List.countP_eq_length_filter]
    have h2 : List.countP (fun n : Notification => !(n.userId == user.id && n.isRead))
        s.notifications =
        List.countP (fun a => decide ¬(a.userId == user.id && a.isRead) = true) s.notifications := by
      congr 1
      funext a
      cases (a.userId == user.id && a.isRead) <;> simp
    omega
  refine ⟨rfl, hmem, ?_, ?_, ?_, ?_, rfl, rfl, rfl, rfl⟩
  · intro n hn hne
    exact (hmem n).2 ⟨hn, fun h => hne h.1⟩
  · intro n hn hr
    exact (hmem n).2 ⟨hn, fun h => by rw [hr] at h; cases h.2⟩
  · intro n hn
    exact ((hmem n).1 hn).2
  · simp only [notificationsDeleteRead, noFaults, Store.deleteReadNotifications]
    rw [hcount]

theorem C17_delete_read_witness :
    (notificationsDeleteRead noFaults inboxStore studentClaims).1.notifications =
      [ ⟨21, 5, "new for 5", none, false⟩, ⟨22, 6, "read by 6", none, true⟩,
        ⟨23, 6, "new for 6", none, false⟩ ] ∧
    (notificationsDeleteRead noFaults inboxStore studentClaims).2 =
      ⟨200, .message "Deleted 1 read notifications"⟩ :=
  ⟨(C17_delete_read inboxStore studentClaims).1.trans (by decide),
   (C17_delete_read inboxStore studentClaims).2.2.2.2.2.1.trans (by decide)⟩

/-! ### Event listings: classification and order -/

theorem insertSorted_perm {α : Type} (compare : α → α → Option Int) (a : α) (l : List α) :
    (insertSorted compare a l).Perm (a :: l) := by
  induction l with
  | nil => exact List.Perm.refl _
  | cons b l ih =>
    unfold insertSorted
    split
    · exact ((List.Perm.cons b ih).trans (List.Perm.swap a b l))
    · exact List.Perm.refl _

theorem sortWith_perm {α : Type} (compare : α → α → Option Int) (l : List α) :
    (sortWith compare l).Perm l := by
  induction l with
  | nil => exact List.Perm.refl _
  | cons a l ih =>
    exact (insertSorted_perm compare a (sortWith compare l)).trans (List.Perm.cons a ih)

theorem insertSorted_sorted {α : Type} (key : α → Int) (compare : α → α → Option Int) (a : α)
    (l : List α) (hc : ∀ x ∈ a :: l, ∀ y ∈ a :: l, compare x y = some (key x - key y))
    (hs : l.Pairwise (fun x y => key x ≤ key y)) :
    (insertSorted compare a l).Pairwise (fun x y => key x ≤ key y) := by
  induction l with
  | nil => simp [insertSorted]
  | cons b l ih =>
    have hab : compare a b = some (key a - key b) :=
      hc a (List.mem_cons_self _ _) b (List.mem_cons_of_mem _ (List.mem_cons_self _ _))
    have hbl : ∀ y ∈ l, key b ≤ key y := (List.pairwise_cons.1 hs).1
    have hl : l.Pairwise (fun x y => key x ≤ key y) := (List.pairwise_cons.1 hs).2
    unfold insertSorted
    by_cases hafter : comesAfter compare a b = true
    · have hlt : key b < key a := by
        simp only [comesAfter, hab, decide_eq_true_eq] at hafter
        omega
      rw [if_pos hafter]
      refine List.pairwise_cons.2 ⟨?_, ih ?_ hl⟩
      · intro y hy
        rcases List.mem_cons.1 ((insertSorted_perm compare a l).mem_iff.1 hy) with h | h
        · rw [h]; exact Int.le_of_lt hlt
        · exact hbl y h
      · intro x hx y hy
        have hx1 : x ∈ a :: b :: l := by
          rcases List.mem_cons.1 hx with h | h
          · rw [h]; exact List.mem_cons_self _ _
          · exact List.mem_cons_of_mem _ (List.mem_cons_of_mem _ h)
        have hy1 : y ∈ a :: b :: l := by
          rcases List.mem_cons.1 hy with h | h
          · rw [h]; exact List.mem_cons_self _ _
          · exact List.mem_cons_of_mem _ (List.mem_cons_of_mem _ h)
        exact hc x hx1 y hy1
    · have hle : key a ≤ key b := by
        simp only [comesAfter, hab, decide_eq_true_eq] at hafter
        omega
      rw [if_neg hafter]
      refine List.pairwise_cons.2 ⟨?_, hs⟩
      intro y hy
      rcases List.mem_cons.1 hy with h | h
      · rw [h]; exact hle
      · exact Int.le_trans hle (hbl y h)

theorem sortWith_sorted {α : Type} (key : α → Int) (compare : α → α → Option Int) (l : List α)
    (hc : ∀ x ∈ l, ∀ y ∈ l, compare x y = some (key x - key y)) :
    (sortWith compare l).Pairwise (fun x y => key x ≤ key y) := by
  induction l with
  | nil => exact List.Pairwise.nil
  | cons a l ih =>
    have hl : (sortWith compare l).Pairwise (fun x y => key x ≤ key y) :=
      ih (fun x hx y hy => hc x (List.mem_cons_of_mem _ hx) y (List.mem_cons_of_mem _ hy))
    refine insertSorted_sorted key compare a (sortWith compare l) ?_ hl
    intro x hx y hy
    have hx1 : x ∈ a :: l := by
      rcases List.mem_cons.1 hx with h | h
      · rw [h]; exact List.mem_cons_self _ _
      · exact List.mem_cons_of_mem _ ((sortWith_perm compare l).mem_iff.1 h)
    have hy1 : y ∈ a :: l := by
      rcases List.mem_cons.1 hy with h | h
      · rw [h]; exact List.mem_cons_self _ _
      · exact List.mem_cons_of_mem _ ((sortWith_perm compare l).mem_iff.1 h)
    exact hc x hx1 y hy1

theorem isAfter_some (t : Option Int) (now : Int) (h : isAfter t now = true) :
    ∃ x, t = some x ∧ now < x := by
  cases t with
  | none => simp [isAfter] at h
  | some x => exact ⟨x, rfl, by simpa [isAfter] using h⟩

theorem isBefore_some (t : Option Int) (now : Int) (h : isBefore t now = true) :
    ∃ x, t = some x ∧ x < now := by
  cases t with
  | none => simp [isBefore] at h
  | some x => exact ⟨x, rfl, by simpa [isBefore] using h⟩

/-- Ascending order by date of a list whose dates are all valid, sorted by the
comparator `aDateTime - bDateTime`. -/
theorem sortWith_ascending {α : Type} (ts : α → Option Int) (l : List α)
    (hv : ∀ x ∈ l, ∃ t, ts x = some t) :
    (sortWith (fun a b => dateDifference (ts a) (ts b)) l).Pairwise
      (fun a b => ∃ x y, ts a = some x ∧ ts b = some y ∧ x ≤ y) := by
  have hs := sortWith_sorted (fun a => (ts a).getD 0)
    (fun a b => dateDifference (ts a) (ts b)) l (by
      intro x hx y hy
      obtain ⟨tx, htx⟩ := hv x hx
      obtain ⟨ty, hty⟩ := hv y hy
      simp [dateDifference, htx, hty])
  refine List.Pairwise.imp_of_mem ?_ hs
  intro a b ha hb hab
  obtain ⟨ta, hta⟩ := hv a ((sortWith_perm _ l).mem_iff.1 ha)
  obtain ⟨tb, htb⟩ := hv b ((sortWith_perm _ l).mem_iff.1 hb)
  refine ⟨ta, tb, hta, htb, ?_⟩
  simpa [hta, htb] using hab

/-- Descending order by date of a list whose dates are all valid, sorted by the
comparator `bDateTime - aDateTime`. -/
theorem sortWith_descending {α : Type} (ts : α → Option Int) (l : List α)
    (hv : ∀ x ∈ l, ∃ t, ts x = some t) :
    (sortWith (fun a b => dateDifference (ts b) (ts a)) l).Pairwise
      (fun a b => ∃ x y, ts a = some x ∧ ts b = some y ∧ y ≤ x) := by
  have hs := sortWith_sorted (fun a => - (ts a).getD 0)
    (fun a b => dateDifference (ts b) (ts a)) l (by
      intro x hx y hy
      obtain ⟨tx, htx⟩ := hv x hx
      obtain ⟨ty, hty⟩ := hv y hy
      simp only [dateDifference, htx, hty, Option.getD_some, Option.some.injEq]
      omega)
  refine List.Pairwise.imp_of_mem ?_ hs
  intro a b ha hb hab
  obtain ⟨ta, hta⟩ := hv a ((sortWith_perm _ l).mem_iff.1 ha)
  obtain ⟨tb, htb⟩ := hv b ((sortWith_perm _ l).mem_iff.1 hb)
  refine ⟨ta, tb, hta, htb, ?_⟩
  simp only [hta, htb, Option.getD_some] at hab
  omega

theorem populateSociety_event (s : Store) (e : Event) : (s.populateSociety e).event = e := rfl

theorem filter_populated (s : Store) (p : Event → Bool) (l : List Event) :
    ((l.map s.populateSociety).filter (fun row => p row.event)).map (fun row => row.event) =
      l.filter p := by
  induction l with
  | nil => rfl
  | cons e l ih =>
    by_cases h : p e = true
    · simp [List.filter_cons, populateSociety_event, h, ih]
    · simp [List.filter_cons, populateSociety_event, h, ih]

theorem eventsGet_perm (parseDate : String → Option Int) (now : Int) (s : Store) :
    (eventsGet parseDate now noFaults s).listedEvents.Perm
      (s.events.filter (fun e => isAfter (eventDateTime parseDate e) now)) := by
  have h := ((sortWith_perm (fun a b : PopulatedEvent =>
      dateDifference (eventDateTime parseDate a.event) (eventDateTime parseDate b.event))
      ((s.events.map s.populateSociety).filter
        (fun row => isAfter (eventDateTime parseDate row.event) now))).map
      (fun row => row.event))
  rw [filter_populated s (fun e => isAfter (eventDateTime parseDate e) now)] at h
  exact h

theorem eventsPast_perm (parseDate : String → Option Int) (now : Int) (s : Store) :
    (eventsPast parseDate now noFaults s).listedEvents.Perm
      (s.events.filter (fun e => isBefore (eventDateTime parseDate e) now)) := by
  have h := ((sortWith_perm (fun a b : PopulatedEvent =>
      dateDifference (eventDateTime parseDate b.event) (eventDateTime parseDate a.event))
      ((s.events.map s.populateSociety).filter
        (fun row => isBefore (eventDateTime parseDate row.event) now))).map
      (fun row => row.event))
  rw [filter_populated s (fun e => isBefore (eventDateTime parseDate e) now)] at h
  exact h

theorem eventsUpcoming_perm (parseDate : String → Option Int) (now : Int) (s : Store) :
    (eventsUpcoming parseDate now noFaults s).listedEvents.Perm
      ((s.events.filter (fun e => e.registrationStatus == "upcoming")).filter
        (fun e => isAfter (eventDateTime parseDate e) now)) :=
  sortWith_perm _ _

theorem eventsGet_faults (parseDate : String → Option Int) (now : Int) (f : Faults) (s : Store) :
    eventsGet parseDate now f s = eventsGet parseDate now noFaults s ∨
      (eventsGet parseDate now f s).listedEvents = [] := by
  cases h : f 0 with
  | none => left; simp [eventsGet, noFaults, h]
  | some e => right; simp [eventsGet, h, Response.listedEvents]

theorem eventsUpcoming_faults (parseDate : String → Option Int) (now : Int) (f : Faults)
    (s : Store) :
    eventsUpcoming parseDate now f s = eventsUpcoming parseDate now noFaults s ∨
      (eventsUpcoming parseDate now f s).listedEvents = [] := by
  cases h : f 0 with
  | none => left; simp [eventsUpcoming, noFaults, h]
  | some e => right; simp [eventsUpcoming, h, Response.listedEvents]

/-- C18: an event whose date and time parse to a timestamp strictly before `now` is
listed neither by `GET /events/upcoming` nor by `GET /events`, whatever the store
failures, and when it is stored and the store answers it is listed by
`GET /events/past`. -/
theorem C18_past_event_placement (parseDate : String → Option Int) (now : Int) (f : Faults)
    (s : Store) (e : Event) (t : Int) (ht : eventDateTime parseDate e = some t)
    (hlt : t < now) :
    e ∉ (eventsUpcoming parseDate now f s).listedEvents ∧
    e ∉ (eventsGet parseDate now f s).listedEvents ∧
    (e ∈ s.events → e ∈ (eventsPast parseDate now noFaults s).listedEvents) := by
  have hnot : isAfter (eventDateTime parseDate e) now = false := by
    simp only [isAfter, ht, decide_eq_false_iff_not]
    omega
  refine ⟨?_, ?_, ?_⟩
  · intro hmem
    rcases eventsUpcoming_faults parseDate now f s with h | h
    · rw [h] at hmem
      have h1 := (eventsUpcoming_perm parseDate now s).mem_iff.1 hmem
      have h2 := (List.mem_filter.1 h1).2
      rw [hnot] at h2
      cases h2
    · rw [h] at hmem
      cases hmem
  · intro hmem
    rcases eventsGet_faults parseDate now f s with h | h
    · rw [h] at hmem
      have h1 := (eventsGet_perm parseDate now s).mem_iff.1 hmem
      have h2 := (List.mem_filter.1 h1).2
      rw [hnot] at h2
      cases h2
    · rw [h] at hmem
      cases hmem
  · intro he
    refine (eventsPast_perm parseDate now s).mem_iff.2 (List.mem_filter.2 ⟨he, ?_⟩)
    simp only [isBefore, ht, decide_eq_true_eq]
    exact hlt

theorem C18_past_event_placement_witness :
    { sampleEvent with id := 3, title := "Opening", date := "2024-12-01", time := "09:00",
                       registrationStatus := "closed" } ∉
      (eventsUpcoming sampleParse sampleNow noFaults calendarStore).listedEvents ∧
    { sampleEvent with id := 3, title := "Opening", date := "2024-12-01", time := "09:00",
                       registrationStatus := "closed" } ∉
      (eventsGet sampleParse sampleNow noFaults calendarStore).listedEvents ∧
    { sampleEvent with id := 3, title := "Opening", date := "2024-12-01", time := "09:00",
                       registrationStatus := "closed" } ∈
      (eventsPast sampleParse sampleNow noFaults calendarStore).listedEvents :=
  ⟨(C18_past_event_placement sampleParse sampleNow noFaults calendarStore _ 1733043600000
      (by decide) (by decide)).1,
   (C18_past_event_placement sampleParse sampleNow noFaults calendarStore _ 1733043600000
      (by decide) (by decide)).2.1,
   (C18_past_event_placement sampleParse sampleNow noFaults calendarStore _ 1733043600000
      (by decide) (by decide)).2.2 (by decide)⟩

theorem notLater_of_le (parseDate : String → Option Int) (a b : Event)
    (h : ∃ x y, eventDateTime parseDate a = some x ∧ eventDateTime parseDate b = some y ∧ x ≤ y) :
    notLater parseDate a b = true := by
  obtain ⟨x, y, hx, hy, hxy⟩ := h
  simp [notLater, hx, hy, hxy]

/-- C19 as stated fails: two upcoming events with the same date and time are both
listed by `GET /events` and by `GET /events/upcoming`, next to each other, so the
timestamps are not strictly ascending. -/
theorem C19_equal_dates_not_strictly_ascending :
    (eventsGet sampleParse sampleNow noFaults calendarStore).listedEvents.map (fun e => e.id) =
      [1, 2, 4] ∧
    (eventsUpcoming sampleParse sampleNow noFaults calendarStore).listedEvents.map
      (fun e => e.id) = [1, 2, 4] ∧
    strictlyAscending sampleParse
      (eventsGet sampleParse sampleNow noFaults calendarStore).listedEvents = false ∧
    strictlyAscending sampleParse
      (eventsUpcoming sampleParse sampleNow noFaults calendarStore).listedEvents = false := by
  decide

/-- C19 (amended): when the store answers, the results of `GET /events` and
`GET /events/upcoming` are ordered ascending by the combined date and time, each
event's timestamp being less than or equal to that of every later one, and the result
of `GET /events/past` is ordered descending in the same sense; each result is a
permutation of the stored events that pass its filter. -/
theorem C19_listings_sorted (parseDate : String → Option Int) (now : Int) (s : Store) :
    ((eventsGet parseDate now noFaults s).listedEvents.Pairwise
        (fun a b => notLater parseDate a b = true) ∧
      (eventsGet parseDate now noFaults s).listedEvents.Perm
        (s.events.filter (fun e => isAfter (eventDateTime parseDate e) now))) ∧
    ((eventsUpcoming parseDate now noFaults s).listedEvents.Pairwise
        (fun a b => notLater parseDate a b = true) ∧
      (eventsUpcoming parseDate now noFaults s).listedEvents.Perm
        ((s.events.filter (fun e => e.registrationStatus == "upcoming")).filter
          (fun e => isAfter (eventDateTime parseDate e) now))) ∧
    ((eventsPast parseDate now noFaults s).listedEvents.Pairwise
        (fun a b => notLater parseDate b a = true) ∧
      (eventsPast parseDate now noFaults s).listedEvents.Perm
        (s.events.filter (fun e => isBefore (eventDateTime parseDate e) now))) := by
  refine ⟨⟨?_, eventsGet_perm parseDate now s⟩, ⟨?_, eventsUpcoming_perm parseDate now s⟩,
    ⟨?_, eventsPast_perm parseDate now s⟩⟩
  · have h := sortWith_ascending (fun row : PopulatedEvent => eventDateTime parseDate row.event)
      ((s.events.map s.populateSociety).filter
        (fun row => isAfter (eventDateTime parseDate row.event) now)) (by
        intro x hx
        obtain ⟨t, ht, _⟩ := isAfter_some _ now (List.mem_filter.1 hx).2
        exact ⟨t, ht⟩)
    show List.Pairwise _ (List.map (fun row : PopulatedEvent => row.event) _)
    rw [List.pairwise_map]
    exact h.imp (fun hab => notLater_of_le parseDate _ _ hab)
  · have h := sortWith_ascending (fun e : Event => eventDateTime parseDate e)
      ((s.events.filter (fun e => e.registrationStatus == "upcoming")).filter
        (fun e => isAfter (eventDateTime parseDate e) now)) (by
        intro x hx
        obtain ⟨t, ht, _⟩ := isAfter_some _ now (List.mem_filter.1 hx).2
        exact ⟨t, ht⟩)
    exact h.imp (fun hab => notLater_of_le parseDate _ _ hab)
  · have h := sortWith_descending (fun row : PopulatedEvent => eventDateTime parseDate row.event)
      ((s.events.map s.populateSociety).filter
        (fun row => isBefore (eventDateTime parseDate row.event) now)) (by
        intro x hx
        obtain ⟨t, ht, _⟩ := isBefore_some _ now (List.mem_filter.1 hx).2
        exact ⟨t, ht⟩)
    show List.Pairwise _ (List.map (fun row : PopulatedEvent => row.event) _)
    rw [List.pairwise_map]
    refine h.imp (fun hab => notLater_of_le parseDate _ _ ?_)
    obtain ⟨x, y, hx, hy, hxy⟩ := hab
    exact ⟨y, x, hy, hx, hxy⟩

/-! ### The society-request workflow -/

theorem find?_map_replace {α : Type} (key : α → Id) (l : List α) (k : Id) (x y : α)
    (hx : key x = k) (h : l.find? (fun a => key a == k) = some y) :
    (l.map (fun a => if key a == key x then x else a)).find? (fun a => key a == k) = some x := by
  induction l with
  | nil => cases h
  | cons a l ih =>
    by_cases hak : key a = k
    · simp [List.find?_cons, hx, hak]
    · have hb : (key a == k) = false := by simpa using hak
      rw [List.find?_cons, hb] at h
      simp only [List.map_cons, hx, hb, Bool.false_eq_true, if_false, List.find?_cons]
      rw [hx] at ih
      exact ih h

theorem findUserById_some (s : Store) (id : Id) (u : User) (h : s.findUserById id = some u) :
    u ∈ s.users ∧ u.id = id := by
  unfold Store.findUserById at h
  exact ⟨List.mem_of_find?_eq_some h, by simpa using List.find?_some h⟩

theorem findSocietyById_some (s : Store) (id : Id) (so : Society)
    (h : s.findSocietyById id = some so) : so ∈ s.societies ∧ so.id = id := by
  unfold Store.findSocietyById at h
  exact ⟨List.mem_of_find?_eq_some h, by simpa using List.find?_some h⟩

theorem verifyAdmin_admin (verify : String → Option Claims) (header : String) (c : Claims)
    (admin : User) (next : User → Store → Store × Response) (s : Store) (hh : header ≠ "")
    (hv : jwtVerify verify (bearerToken header) = some c)
    (ha : s.findUserById c.id = some admin) (hr : admin.role = "admin") :
    verifyAdmin verify none (some header) next s = next admin s := by
  simp [verifyAdmin, hh, hv, ha, hr]

/-- The run of the decision handler when the society and its president are stored,
the decided society passes validation, the president passes it too and the store
answers. -/
theorem societyDecision_ok (s : Store) (id : Id) (decision : Field) (so : Society) (p : User)
    (hso : s.findSocietyById id = some so) (hp : s.findUserById so.president = some p)
    (hvalid : Society.valid { so with requestStatus := decision } = true)
    (hreq : p.requiredOk = true) :
    societyDecision noFaults s id decision =
      ((((s.replaceSociety { so with requestStatus := decision }).replaceUser
            (if decision = .text "approved" then
              { p with role := "society", societyRequestStatus := "approved" }
             else { p with societyRequestStatus := "rejected" })).saveNotification p.id
          (if decision = .text "approved" then
            "Your society request for \"" ++ so.name ++ "\" has been approved."
           else "Your society request for \"" ++ so.name ++ "\" has been rejected.")
          none false).1,
       ⟨200, .decided ("Society request " ++ decision.template ++ " successfully.")
          ((((s.replaceSociety { so with requestStatus := decision }).replaceUser
            (if decision = .text "approved" then
              { p with role := "society", societyRequestStatus := "approved" }
             else { p with societyRequestStatus := "rejected" })).saveNotification p.id
          (if decision = .text "approved" then
            "Your society request for \"" ++ so.name ++ "\" has been approved."
           else "Your society request for \"" ++ so.name ++ "\" has been rejected.")
          none false).2)⟩) := by
  have hreq2 : User.requiredOk (if decision = .text "approved" then
      { p with role := "society", societyRequestStatus := "approved" }
      else { p with societyRequestStatus := "rejected" }) = true := by
    split <;> exact hreq
  have hid : (if decision = .text "approved" then
      ({ p with role := "society", societyRequestStatus := "approved" } : User)
      else { p with societyRequestStatus := "rejected" }).id = p.id := by
    split <;> rfl
  simp only [societyDecision, noFaults, hso, hp, hvalid, hreq2, if_true, hid]

/-- C12 as stated fails: student 5, president of the pending request 41, blanks the
own name through `PUT /users/update` (answered 200, no validation).  The admin's
approval is then answered 500: the society is stored as approved, but
`president.save()` fails validation, so the president keeps role "student" and status
"pending" and no notification is created. -/
theorem C12_approval_fails_for_invalid_president :
    (userUpdate noFaults societyStore studentClaims (some "") none).2.status = 200 ∧
    blankNameStore.findUserById 5 =
      some ⟨5, "", "asha@kiit.in", "h5", "5", "student", "pending"⟩ ∧
    (adminDecisionEndpoint sampleVerify none noFaults (some "Bearer admin-token") 41
      (.text "approved") blankNameStore).2 = ⟨500, .error "Server error"⟩ ∧
    ((adminDecisionEndpoint sampleVerify none noFaults (some "Bearer admin-token") 41
      (.text "approved") blankNameStore).1.findSocietyById 41).map
        (fun so => so.requestStatus) = some (.text "approved") ∧
    (adminDecisionEndpoint sampleVerify none noFaults (some "Bearer admin-token") 41
      (.text "approved") blankNameStore).1.findUserById 5 =
      some ⟨5, "", "asha@kiit.in", "h5", "5", "student", "pending"⟩ ∧
    (adminDecisionEndpoint sampleVerify none noFaults (some "Bearer admin-token") 41
      (.text "approved") blankNameStore).1.notifications = blankNameStore.notifications := by
  decide

/-- C12 (amended): an admin's decision on a stored society request `so` whose
president `p` is stored, when both documents pass the required-field validation of
their schemas (name and email of the society, name, email, password and phone of the
president, all non-empty) and the store answers.  "approved" leaves `p` with role
"society" and societyRequestStatus "approved"; "rejected" leaves `p` with its role and
with societyRequestStatus "rejected".  In both cases the answer is 200, the society's
requestStatus is the decision, and exactly one Notification is appended, addressed to
`p`. -/
theorem C12_decision_effects (verify : String → Option Claims) (header : String) (c : Claims)
    (admin : User) (s : Store) (id : Id) (so : Society) (p : User) (decision : String)
    (hh : header ≠ "") (hv : jwtVerify verify (bearerToken header) = some c)
    (ha : s.findUserById c.id = some admin) (hr : admin.role = "admin")
    (hso : s.findSocietyById id = some so) (hp : s.findUserById so.president = some p)
    (hname : so.name ≠ "") (hemail : so.email ≠ "") (hreq : p.requiredOk = true)
    (hd : decision = "approved" ∨ decision = "rejected") :
    (adminDecisionEndpoint verify none noFaults (some header) id (.text decision) s).2.status =
      200 ∧
    (adminDecisionEndpoint verify none noFaults (some header) id (.text decision)
      s).1.findSocietyById id = some { so with requestStatus := .text decision } ∧
    (decision = "approved" →
      (adminDecisionEndpoint verify none noFaults (some header) id (.text decision)
        s).1.findUserById so.president =
        some { p with role := "society", societyRequestStatus := "approved" }) ∧
    (decision = "rejected" →
      (adminDecisionEndpoint verify none noFaults (some header) id (.text decision)
        s).1.findUserById so.president = some { p with societyRequestStatus := "rejected" }) ∧
    ∃ n : Notification,
      (adminDecisionEndpoint verify none noFaults (some header) id (.text decision)
        s).1.notifications = s.notifications ++ [n] ∧ n.userId = p.id ∧
      n.userId = so.president := by
  have hvalid : Society.valid { so with requestStatus := .text decision } = true := by
    rcases hd with h | h <;> simp [Society.valid, requestStatusOk, hname, hemail, h]
  have hpid : p.id = so.president := (findUserById_some s so.president p hp).2
  have hsid : so.id = id := (findSocietyById_some s id so hso).2
  have hrun : adminDecisionEndpoint verify none noFaults (some header) id (.text decision) s =
      societyDecision noFaults s id (.text decision) :=
    verifyAdmin_admin verify header c admin _ s hh hv ha hr
  rw [hrun, societyDecision_ok s id (.text decision) so p hso hp hvalid hreq]
  refine ⟨rfl, ?_, ?_, ?_, ?_⟩
  · exact find?_map_replace (fun x : Society => x.id) s.societies id
      { so with requestStatus := .text decision } so hsid hso
  · intro hap
    subst hap
    simp only [if_true]
    exact find?_map_replace (fun x : User => x.id) s.users so.president
      { p with role := "society", societyRequestStatus := "approved" } p hpid hp
  · intro hrej
    subst hrej
    have hne : ¬ (Field.text "rejected" = Field.text "approved") := by decide
    simp only [hne, if_false]
    exact find?_map_replace (fun x : User => x.id) s.users so.president
      { p with societyRequestStatus := "rejected" } p hpid hp
  · exact ⟨_, rfl, rfl, hpid⟩

theorem C12_decision_effects_witness :
    (adminDecisionEndpoint sampleVerify none noFaults (some "Bearer admin-token") 41
      (.text "approved") societyStore).2.status = 200 ∧
    (adminDecisionEndpoint sampleVerify none noFaults (some "Bearer admin-token") 41
      (.text "approved") societyStore).1.findSocietyById 41 =
      some ⟨41, "Chess Club", none, 5, "chess@kiit.in", none, .text "approved"⟩ ∧
    (adminDecisionEndpoint sampleVerify none noFaults (some "Bearer admin-token") 41
      (.text "approved") societyStore).1.findUserById 5 =
      some ⟨5, "Asha", "asha@kiit.in", "h5", "5", "society", "approved"⟩ :=
  ⟨(C12_decision_effects sampleVerify "Bearer admin-token" adminClaims
      ⟨3, "Root", "root@kiit.in", "h3", "3", "admin", "none"⟩ societyStore 41
      ⟨41, "Chess Club", none, 5, "chess@kiit.in", none, .text "pending"⟩
      ⟨5, "Asha", "asha@kiit.in", "h5", "5", "student", "pending"⟩ "approved"
      (by decide) (by decide) (by decide) (by decide) (by decide) (by decide) (by decide)
      (by decide) (by decide) (Or.inl rfl)).1,
   (C12_decision_effects sampleVerify "Bearer admin-token" adminClaims
      ⟨3, "Root", "root@kiit.in", "h3", "3", "admin", "none"⟩ societyStore 41
      ⟨41, "Chess Club", none, 5, "chess@kiit.in", none, .text "pending"⟩
      ⟨5, "Asha", "asha@kiit.in", "h5", "5", "student", "pending"⟩ "approved"
      (by decide) (by decide) (by decide) (by decide) (by decide) (by decide) (by decide)
      (by decide) (by decide) (Or.inl rfl)).2.1,
   (C12_decision_effects sampleVerify "Bearer admin-token" adminClaims
      ⟨3, "Root", "root@kiit.in", "h3", "3", "admin", "none"⟩ societyStore 41
      ⟨41, "Chess Club", none, 5, "chess@kiit.in", none, .text "pending"⟩
      ⟨5, "Asha", "asha@kiit.in", "h5", "5", "student", "pending"⟩ "approved"
      (by decide) (by decide) (by decide) (by decide) (by decide) (by decide) (by decide)
      (by decide) (by decide) (Or.inl rfl)).2.2.1 rfl⟩

theorem requestStatusOk_accepted (decision : Field) (h : requestStatusOk decision = true) :
    AcceptedDecision decision := by
  cases decision with
  | missing => exact Or.inl rfl
  | null => exact Or.inr (Or.inl rfl)
  | text v =>
    simp only [requestStatusOk, Bool.or_eq_true, beq_iff_eq] at h
    rcases h with (h | h) | h
    · exact Or.inr (Or.inr (Or.inl (by rw [h])))
    · exact Or.inr (Or.inr (Or.inr (Or.inl (by rw [h]))))
    · exact Or.inr (Or.inr (Or.inr (Or.inr (by rw [h]))))

theorem valid_requestStatus (so : Society) (h : so.valid = true) :
    AcceptedDecision so.requestStatus := by
  simp only [Society.valid, Bool.and_eq_true] at h
  exact requestStatusOk_accepted _ h.2

theorem decidedOrKept_refl (id : Id) (decision : Field) (l : List Society) :
    List.Forall₂ (DecidedOrKept id decision) l l :=
  List.forall₂_same.2 (fun _ _ => ⟨rfl, Or.inl rfl⟩)

theorem replaceSociety_decided (s : Store) (id : Id) (decision : Field) (so : Society)
    (hso : s.findSocietyById id = some so)
    (hvalid : Society.valid { so with requestStatus := decision } = true) :
    List.Forall₂ (DecidedOrKept id decision) s.societies
      (s.replaceSociety { so with requestStatus := decision }).societies := by
  have hsid : so.id = id := (findSocietyById_some s id so hso).2
  simp only [Store.replaceSociety, List.forall₂_map_right_iff, List.forall₂_same]
  intro x _
  by_cases hid : x.id = so.id
  · have hb : (x.id == so.id) = true := by simpa using hid
    simp only [hb, if_true]
    exact ⟨hid.symm, Or.inr ⟨hid.trans hsid, rfl, valid_requestStatus _ hvalid⟩⟩
  · have hb : (x.id == so.id) = false := by simpa using hid
    simp only [hb, Bool.false_eq_true, if_false]
    exact ⟨rfl, Or.inl rfl⟩

theorem requiredOk_approved (p : User) :
    User.requiredOk { p with role := "society", societyRequestStatus := "approved" } =
      p.requiredOk := rfl

theorem requiredOk_rejected (p : User) :
    User.requiredOk { p with societyRequestStatus := "rejected" } = p.requiredOk := rfl

/-- Either the decision handler leaves the societies as they were and does not answer
200, or it found the society, the decided row passed validation, and the societies are
the stored ones with that row replaced. -/
theorem societyDecision_cases (f : Faults) (s : Store) (id : Id) (decision : Field) :
    ((societyDecision f s id decision).1.societies = s.societies ∧
      (societyDecision f s id decision).2.status ≠ 200) ∨
    ∃ so, s.findSocietyById id = some so ∧
      Society.valid { so with requestStatus := decision } = true ∧
      (societyDecision f s id decision).1.societies =
        (s.replaceSociety { so with requestStatus := decision }).societies := by
  cases h0 : f 0 with
  | some e => left; simp [societyDecision, h0, decisionServerError]
  | none =>
    cases hso : s.findSocietyById id with
    | none => left; simp [societyDecision, h0, hso]
    | some so =>
      cases h1 : f 1 with
      | some e => left; simp [societyDecision, h0, hso, h1, decisionServerError]
      | none =>
        by_cases hvalid : Society.valid { so with requestStatus := decision } = true
        · right
          refine ⟨so, rfl, hvalid, ?_⟩
          cases hp : s.findUserById so.president with
          | none => simp [societyDecision, h0, hso, h1, hvalid, hp]
          | some p =>
            cases h2 : f 2 with
            | some e => simp [societyDecision, h0, hso, h1, hvalid, hp, h2]
            | none =>
              by_cases hd : decision = .text "approved"
              · subst hd
                by_cases hreq : p.requiredOk = true
                · cases h3 : f 3 <;>
                    simp [societyDecision, h0, hso, h1, hvalid, hp, h2, h3, requiredOk_approved,
                      hreq, Store.replaceUser, Store.saveNotification]
                · simp [societyDecision, h0, hso, h1, hvalid, hp, h2, requiredOk_approved, hreq]
              · by_cases hreq : p.requiredOk = true
                · cases h3 : f 3 <;>
                    simp [societyDecision, h0, hso, h1, hvalid, hp, h2, h3, hd,
                      requiredOk_rejected, hreq, Store.replaceUser, Store.saveNotification]
                · simp [societyDecision, h0, hso, h1, hvalid, hp, h2, hd, requiredOk_rejected,
                    hreq]
        · left; simp [societyDecision, h0, hso, h1, hvalid, decisionServerError]

theorem societyRequest_societies (verify : String → Option Claims) (f : Faults)
    (authHeader : Option String) (b : SocietyRequestBody) (s : Store) :
    (societyRequest verify f authHeader b s).1.societies = s.societies ∨
    ∃ created : Society, created.requestStatus = .text "pending" ∧
      (societyRequest verify f authHeader b s).1.societies = s.societies ++ [created] := by
  unfold societyRequest
  split
  · exact Or.inl rfl
  · split
    · exact Or.inl rfl
    · split
      · exact Or.inl rfl
      · split
        · exact Or.inl rfl
        · split
          · exact Or.inl rfl
          · split
            · exact Or.inl rfl
            · split
              · exact Or.inl rfl
              · rename_i user _ _ _ s1 created hsave
                have hs1 : created.requestStatus = .text "pending" ∧
                    s1.societies = s.societies ++ [created] := by
                  simp only [Store.saveNewSociety, Option.bind_eq_bind, Option.pure_def,
                    Option.bind_eq_some, Option.some.injEq, Prod.mk.injEq] at hsave
                  obtain ⟨_, _, _, _, h1, h2⟩ := hsave
                  subst h1
                  subst h2
                  exact ⟨rfl, rfl⟩
                right
                refine ⟨created, hs1.1, ?_⟩
                dsimp only
                split
                · exact hs1.2
                · split
                  · exact hs1.2
                  · exact hs1.2

theorem registerPost_societies (f : Faults) (s : Store) (user : Claims) (eventId : Id) :
    (registerPost f s user eventId).1.societies = s.societies := by
  unfold registerPost
  split
  · rfl
  · split
    · rfl
    · split
      · rfl
      · split
        · rfl
        · split
          · rfl
          · split
            · rfl
            · split
              · rfl
              · rename_i s1 registration hsave
                have hs1 := (saveRegister_ok s s1 user.id eventId registration hsave).2.2
                subst hs1
                split <;> rfl

theorem eventAdd_societies (f : Faults) (s : Store) (user : Claims) (b : EventInput) :
    (eventAdd f s user b).1.societies = s.societies := by
  by_cases hrole : user.role = "admin"
  · cases hsoc : b.societyId with
    | none => simp [eventAdd, hrole, hsoc]
    | some societyId =>
      cases h0 : f 0 with
      | some e => simp [eventAdd, hrole, hsoc, h0]
      | none =>
        cases hsave : s.saveNewEvent b societyId with
        | none => simp [eventAdd, hrole, hsoc, h0, hsave]
        | some p =>
          obtain ⟨s1, newEvent⟩ := p
          have hs1 := (saveNewEvent_some s s1 b societyId newEvent hsave).2.2.2.2.1
          cases h1 : f 1 with
          | some e => simp [eventAdd, hrole, hsoc, h0, hsave, h1, hs1]
          | none =>
            cases h2 : f 2 <;>
              simp [eventAdd, hrole, hsoc, h0, hsave, h1, h2, hs1, Store.insertNotifications]
  · simp [eventAdd, hrole]

theorem eventPut_societies (f : Faults) (s : Store) (user : Claims) (eventId : Id)
    (updates : EventUpdates) : (eventPut f s user eventId updates).1.societies = s.societies := by
  unfold eventPut
  split
  · rfl
  · split
    · rfl
    · split
      · rfl
      · split
        · rfl
        · dsimp only
          split <;> rfl

theorem eventDelete_societies (f : Faults) (s : Store) (user : Claims) (id : Id) :
    (eventDelete f s user id).1.societies = s.societies := by
  unfold eventDelete
  split
  · rfl
  · split
    · rfl
    · split
      · rfl
      · split <;> rfl

theorem notificationPatchRead_societies (f : Faults) (s : Store) (user : Claims) (id : Id)
    (isRead : Option Bool) :
    (notificationPatchRead f s user id isRead).1.societies = s.societies := by
  cases h0 : f 0 with
  | some e => simp [notificationPatchRead, h0]
  | none =>
    cases hfind : s.findNotificationById id <;>
      simp [notificationPatchRead, h0, Store.findNotificationByIdAndUpdate, hfind]

theorem notificationsDeleteRead_societies (f : Faults) (s : Store) (user : Claims) :
    (notificationsDeleteRead f s user).1.societies = s.societies := by
  cases h0 : f 0 <;> simp [notificationsDeleteRead, h0, Store.deleteReadNotifications]

theorem userUpdate_societies (f : Faults) (s : Store) (user : Claims) (name phone : Option String) :
    (userUpdate f s user name phone).1.societies = s.societies := by
  cases h0 : f 0 with
  | some e => simp [userUpdate, h0]
  | none => cases hfind : s.findUserById user.id <;> simp [userUpdate, h0, hfind, Store.replaceUser]

/-- C13 as stated fails: society 40 is approved, and an admin decision on it is
answered 200 and leaves it rejected, or, with the body value "pending", pending
again; a body without the key `decision` is answered 200 as well and removes the
status. -/
theorem C13_terminal_status_changes_again :
    (societyStore.findSocietyById 40).map (fun so => so.requestStatus) =
      some (.text "approved") ∧
    (adminDecisionEndpoint sampleVerify none noFaults (some "Bearer admin-token") 40
      (.text "rejected") societyStore).2.status = 200 ∧
    ((adminDecisionEndpoint sampleVerify none noFaults (some "Bearer admin-token") 40
      (.text "rejected") societyStore).1.findSocietyById 40).map (fun so => so.requestStatus) =
      some (.text "rejected") ∧
    (adminDecisionEndpoint sampleVerify none noFaults (some "Bearer admin-token") 40
      (.text "pending") societyStore).2.status = 200 ∧
    ((adminDecisionEndpoint sampleVerify none noFaults (some "Bearer admin-token") 40
      (.text "pending") societyStore).1.findSocietyById 40).map (fun so => so.requestStatus) =
      some (.text "pending") ∧
    (adminDecisionEndpoint sampleVerify none noFaults (some "Bearer admin-token") 40
      .missing societyStore).2.status = 200 ∧
    ((adminDecisionEndpoint sampleVerify none noFaults (some "Bearer admin-token") 40
      .missing societyStore).1.findSocietyById 40).map (fun so => so.requestStatus) =
      some .missing := by
  decide

/-- C13 (amended): `POST /societies/request` changes the societies only by appending
one with requestStatus "pending".  The decision handler keeps the id of every society
and changes the requestStatus of none but the one it names, and only to what the body
carries under `decision`, which is then "pending", "approved", "rejected", no value or
`null`; when it answers 200 the society it names is stored with exactly that, whatever
its requestStatus was; a body value that is none of these is not answered 200 and
changes no society.  Registration, event creation, update and deletion, the
notification handlers and `PUT /users/update` leave the societies as they were. -/
theorem C13_request_status_transitions (verify : String → Option Claims) (f : Faults)
    (authHeader : Option String) (b : SocietyRequestBody) (s : Store) (id : Id)
    (decision : Field) :
    ((societyRequest verify f authHeader b s).1.societies = s.societies ∨
      ∃ created : Society, created.requestStatus = .text "pending" ∧
        (societyRequest verify f authHeader b s).1.societies = s.societies ++ [created]) ∧
    List.Forall₂ (DecidedOrKept id decision) s.societies
      (societyDecision f s id decision).1.societies ∧
    ((societyDecision f s id decision).2.status = 200 →
      ∃ so, s.findSocietyById id = some so ∧
        (societyDecision f s id decision).1.findSocietyById id =
          some { so with requestStatus := decision } ∧
        AcceptedDecision decision) ∧
    (¬ AcceptedDecision decision →
      (societyDecision f s id decision).1.societies = s.societies ∧
      (societyDecision f s id decision).2.status ≠ 200) ∧
    (∀ (user : Claims) (eventId : Id) (input : EventInput) (updates : EventUpdates)
        (isRead : Option Bool) (name phone : Option String),
      (registerPost f s user eventId).1.societies = s.societies ∧
      (eventAdd f s user input).1.societies = s.societies ∧
      (eventPut f s user eventId updates).1.societies = s.societies ∧
      (eventDelete f s user eventId).1.societies = s.societies ∧
      (notificationPatchRead f s user eventId isRead).1.societies = s.societies ∧
      (notificationsDeleteRead f s user).1.societies = s.societies ∧
      (userUpdate f s user name phone).1.societies = s.societies) := by
  refine ⟨societyRequest_societies verify f authHeader b s, ?_, ?_, ?_, ?_⟩
  · rcases societyDecision_cases f s id decision with ⟨hkeep, _⟩ | ⟨so, hso, hvalid, hdone⟩
    · rw [hkeep]
      exact decidedOrKept_refl id decision s.societies
    · rw [hdone]
      exact replaceSociety_decided s id decision so hso hvalid
  · intro h200
    rcases societyDecision_cases f s id decision with ⟨_, hne⟩ | ⟨so, hso, hvalid, hdone⟩
    · exact absurd h200 hne
    · refine ⟨so, hso, ?_, valid_requestStatus _ hvalid⟩
      unfold Store.findSocietyById
      rw [hdone]
      exact find?_map_replace (fun x : Society => x.id) s.societies id
        { so with requestStatus := decision } so (findSocietyById_some s id so hso).2 hso
  · intro hnot
    rcases societyDecision_cases f s id decision with hkeep | ⟨so, _, hvalid, _⟩
    · exact hkeep
    · exact absurd (valid_requestStatus _ hvalid) hnot
  · intro user eventId input updates isRead name phone
    exact ⟨registerPost_societies f s user eventId, eventAdd_societies f s user input,
      eventPut_societies f s user eventId updates, eventDelete_societies f s user eventId,
      notificationPatchRead_societies f s user eventId isRead,
      notificationsDeleteRead_societies f s user, userUpdate_societies f s user name phone⟩

theorem C13_request_status_transitions_witness :
    (∃ so, societyStore.findSocietyById 41 = some so ∧
      (societyDecision noFaults societyStore 41 (.text "rejected")).1.findSocietyById 41 =
        some { so with requestStatus := .text "rejected" } ∧
      AcceptedDecision (.text "rejected")) ∧
    (societyDecision noFaults societyStore 41 (.text "maybe")).1.societies =
      societyStore.societies ∧
    (societyDecision noFaults societyStore 41 (.text "maybe")).2.status ≠ 200 :=
  ⟨(C13_request_status_transitions sampleVerify noFaults none ⟨none, none, none, none⟩
    societyStore 41 (.text "rejected")).2.2.1 (by decide),
   (C13_request_status_transitions sampleVerify noFaults none ⟨none, none, none, none⟩
    societyStore 41 (.text "maybe")).2.2.2.1
      (by simp [AcceptedDecision])⟩

/-! ### Who owns the workflow fields -/

theorem userUpdate_keeps_role (f : Faults) (s : Store) (user : Claims)
    (name phone : Option String) (hnd : (s.users.map (fun u => u.id)).Nodup) :
    (userUpdate f s user name phone).1.users.map
        (fun u => (u.id, u.role, u.societyRequestStatus)) =
      s.users.map (fun u => (u.id, u.role, u.societyRequestStatus)) := by
  cases h0 : f 0 with
  | some e => simp [userUpdate, h0]
  | none =>
    cases hfind : s.findUserById user.id with
    | none => simp [userUpdate, h0, hfind]
    | some found =>
      have hmem := (findUserById_some s user.id found hfind).1
      simp only [userUpdate, h0, hfind, Store.replaceUser, List.map_map]
      apply List.map_congr_left
      intro u hu
      by_cases hu2 : u.id = found.id
      · have hb : (u.id == found.id) = true := by simpa using hu2
        have hxe : u = found := List.inj_on_of_nodup_map hnd hu hmem hu2
        subst hxe
        simp only [Function.comp_apply, hb, if_true]
      · have hb : (u.id == found.id) = false := by simpa using hu2
        simp only [Function.comp_apply, hb, Bool.false_eq_true, if_false]

/-- C14: the society account 2 calls `PUT /societies/me` with a body that names
`requestStatus` and `president`: the handler answers 200 and its approved society 40
is stored as pending with president 5, where the claim requires both fields to stay. -/
theorem C14_profile_update_overwrites_workflow_fields :
    societyClaims.role = "society" ∧
    societyStore.findSocietyById 40 =
      some ⟨40, "KIIT Robotics", some "Robots", 2, "robo@kiit.in", some "2", .text "approved"⟩ ∧
    (societyPutMe noFaults societyStore societyClaims
      ⟨none, none, none, none, some "pending", some 5⟩).2.status = 200 ∧
    (societyPutMe noFaults societyStore societyClaims
      ⟨none, none, none, none, some "pending", some 5⟩).1.findSocietyById 40 =
      some ⟨40, "KIIT Robotics", some "Robots", 5, "robo@kiit.in", some "2", .text "pending"⟩ := by
  decide

/-! ### Rejected credentials -/

/-- What `verifyToken` does with a credential it does not accept: 401, store
untouched, handler not run. -/
theorem verifyToken_rejects (verify : String → Option Claims) (authHeader : Option String)
    (next : Claims → Store → Store × Response) (s : Store)
    (hbad : authHeader = none ∨ authHeader = some "" ∨
      (∃ header, authHeader = some header ∧ jwtVerify verify (bearerToken header) = none)) :
    (verifyToken verify authHeader next s).2.status = 401 ∧
    (verifyToken verify authHeader next s).1 = s := by
  rcases hbad with h | h | ⟨header, h, hv⟩
  · subst h; exact ⟨rfl, rfl⟩
  · subst h; exact ⟨rfl, rfl⟩
  · subst h
    unfold verifyToken
    by_cases hh : header = ""
    · simp [hh]
    · cases htok : bearerToken header with
      | none => simp [hh, htok]
      | some token =>
        by_cases ht : token = ""
        · simp [hh, htok, ht]
        · have hver : verify token = none := by simpa [jwtVerify, htok, ht] using hv
          simp [hh, htok, ht, hver]

/-- C15: with a bearer token that verification rejects ("expired"), or with a header
that carries no token ("Bearer"), the admin decision endpoint answers 500 "Server
error" and `POST /societies/request` answers 500, where the claim requires 401; the
endpoints behind `verifyToken` answer 401 to the same header.  The store is unchanged
in all of these. -/
theorem C15_rejected_token_is_answered_500 :
    sampleVerify "expired" = none ∧
    adminDecisionEndpoint sampleVerify none noFaults (some "Bearer expired") 41
      (.text "approved") societyStore = (societyStore, ⟨500, .error "Server error"⟩) ∧
    adminDecisionEndpoint sampleVerify none noFaults (some "Bearer") 41 (.text "approved")
      societyStore = (societyStore, ⟨500, .error "Server error"⟩) ∧
    societyRequest sampleVerify noFaults (some "Bearer expired")
      ⟨some "Chess Club", none, some "chess@kiit.in", none⟩ societyStore =
      (societyStore, ⟨500, .error "Server error while sending society request"⟩) ∧
    verifyToken sampleVerify (some "Bearer expired")
      (fun user s => registerPost noFaults s user 1) societyStore =
      (societyStore, ⟨401, .msg "Invalid or expired token"⟩) := by
  decide

/-! ### What a 500 answer discloses -/

/-- C20: `GET /registers/1/registrations` by the admin when `Event.findById` throws:
the 500 body is the internal error message itself, so two runs that differ only in
that message get different answers, where the claim requires a fixed message. -/
theorem C20_registrations_error_discloses_message :
    registrationsGet (fun _ => some ⟨"connect ECONNREFUSED 10.0.0.5:27017", 0⟩) sampleStore
      adminClaims 1 = ⟨500, .message "connect ECONNREFUSED 10.0.0.5:27017"⟩ ∧
    registrationsGet (fun _ => some ⟨"E11000 duplicate key error", 0⟩) sampleStore
      adminClaims 1 = ⟨500, .message "E11000 duplicate key error"⟩ ∧
    registrationsGet (fun _ => some ⟨"connect ECONNREFUSED 10.0.0.5:27017", 0⟩) sampleStore
      adminClaims 1 ≠
    registrationsGet (fun _ => some ⟨"E11000 duplicate key error", 0⟩) sampleStore
      adminClaims 1 := by
  decide

/-- The `catch` block of `POST /registers/:eventId` does not depend on the error: two
failure patterns that throw at the same operations give the same answer. -/
theorem registerPost_error_message_independent (f g : Faults) (s : Store) (user : Claims)
    (eventId : Id) (h : ∀ k, (f k).isSome = (g k).isSome) :
    registerPost f s user eventId = registerPost g s user eventId := by
  have hk : ∀ k, (f k = none ∧ g k = none) ∨ (∃ a b, f k = some a ∧ g k = some b) := by
    intro k
    have := h k
    cases hf : f k <;> cases hg : g k <;> simp [hf, hg] at this ⊢
  unfold registerPost
  rcases hk 0 with ⟨a0, b0⟩ | ⟨_, _, a0, b0⟩ <;>
  rcases hk 1 with ⟨a1, b1⟩ | ⟨_, _, a1, b1⟩ <;>
  rcases hk 2 with ⟨a2, b2⟩ | ⟨_, _, a2, b2⟩ <;>
  rcases hk 3 with ⟨a3, b3⟩ | ⟨_, _, a3, b3⟩ <;>
  simp only [a0, b0, a1, b1, a2, b2, a3, b3]

/-! ### Agreement of the society and its president after a decision -/

/-- For the decisions "approved" and "rejected" the stored society and its president
carry the same status after the handler ran. -/
theorem societyDecision_statuses_agree (s : Store) (id : Id) (decision : String) (so : Society)
    (p : User) (hso : s.findSocietyById id = some so)
    (hp : s.findUserById so.president = some p) (hname : so.name ≠ "") (hemail : so.email ≠ "")
    (hreq : p.requiredOk = true) (hd : decision = "approved" ∨ decision = "rejected") :
    ((societyDecision noFaults s id (.text decision)).1.findSocietyById id).map
        (fun x => x.requestStatus) = some (.text decision) ∧
    ((societyDecision noFaults s id (.text decision)).1.findUserById so.president).map
        (fun u => u.societyRequestStatus) = some decision := by
  have hvalid : Society.valid { so with requestStatus := .text decision } = true := by
    rcases hd with h | h <;> simp [Society.valid, requestStatusOk, hname, hemail, h]
  have hpid : p.id = so.president := (findUserById_some s so.president p hp).2
  have hsid : so.id = id := (findSocietyById_some s id so hso).2
  rw [societyDecision_ok s id (.text decision) so p hso hp hvalid hreq]
  constructor
  · have h := find?_map_replace (fun x : Society => x.id) s.societies id
      { so with requestStatus := .text decision } so hsid hso
    show Option.map _ (List.find? _ (List.map _ s.societies)) = _
    rw [h]
    rfl
  · rcases hd with hd | hd
    · subst hd
      have h := find?_map_replace (fun x : User => x.id) s.users so.president
        { p with role := "society", societyRequestStatus := "approved" } p hpid hp
      show Option.map _ (List.find? _ (List.map _ s.users)) = _
      simp only [if_true]
      rw [h]
      rfl
    · subst hd
      have h := find?_map_replace (fun x : User => x.id) s.users so.president
        { p with societyRequestStatus := "rejected" } p hpid hp
      show Option.map _ (List.find? _ (List.map _ s.users)) = _
      have hne : ¬ (Field.text "rejected" = Field.text "approved") := by decide
      simp only [hne, if_false]
      rw [h]
      rfl

/-- C21: an admin decides the pending request 41 of student 5 with the body value
"pending": the endpoint answers 200 "Society request pending successfully.", the
society is stored as "pending" and its president as "rejected", where the claim
requires the two to be equal. -/
theorem C21_decision_pending_splits_statuses :
    (adminDecisionEndpoint sampleVerify none noFaults (some "Bearer admin-token") 41
      (.text "pending") societyStore).2 =
      ⟨200, .decided "Society request pending successfully."
        ⟨50, 5, "Your society request for \"Chess Club\" has been rejected.", none, false⟩⟩ ∧
    ((adminDecisionEndpoint sampleVerify none noFaults (some "Bearer admin-token") 41
      (.text "pending") societyStore).1.findSocietyById 41).map (fun so => so.requestStatus) =
      some (.text "pending") ∧
    ((adminDecisionEndpoint sampleVerify none noFaults (some "Bearer admin-token") 41
      (.text "pending") societyStore).1.findUserById 5).map (fun u => u.societyRequestStatus) =
      some "rejected" := by
  decide

/-- A body without the key `decision`: the endpoint answers 200 "Society request
undefined successfully.", the status of the society is removed and the president is
stored as rejected. -/
theorem societyDecision_without_decision :
    (adminDecisionEndpoint sampleVerify none noFaults (some "Bearer admin-token") 41
      .missing societyStore).2 =
      ⟨200, .decided "Society request undefined successfully."
        ⟨50, 5, "Your society request for \"Chess Club\" has been rejected.", none, false⟩⟩ ∧
    ((adminDecisionEndpoint sampleVerify none noFaults (some "Bearer admin-token") 41
      .missing societyStore).1.findSocietyById 41).map (fun so => so.requestStatus) =
      some .missing ∧
    ((adminDecisionEndpoint sampleVerify none noFaults (some "Bearer admin-token") 41
      .missing societyStore).1.findUserById 5).map (fun u => u.societyRequestStatus) =
      some "rejected" := by
  decide

/-! ### Whose notification a caller may mark -/

/-- The read-flag handler never looks at the caller: any two callers get the same
answer and leave the same store. -/
theorem notificationPatchRead_ignores_caller (f : Faults) (s : Store) (c1 c2 : Claims) (id : Id)
    (isRead : Option Bool) :
    notificationPatchRead f s c1 id isRead = notificationPatchRead f s c2 id isRead := rfl

/-- C22: student 5 calls `PATCH /notifications/23/read` with an empty body;
notification 23 is addressed to user 6 and unread.  The handler answers 200 and the
notification is stored as read, where the claim requires it to stay unchanged. -/
theorem C22_foreign_notification_marked_read :
    studentClaims.id = 5 ∧
    inboxStore.findNotificationById 23 = some ⟨23, 6, "new for 6", none, false⟩ ∧
    (notificationPatchRead noFaults inboxStore studentClaims 23 none).2 =
      ⟨200, .notification ⟨23, 6, "new for 6", none, true⟩⟩ ∧
    (notificationPatchRead noFaults inboxStore studentClaims 23 none).1.findNotificationById 23 =
      some ⟨23, 6, "new for 6", none, true⟩ := by
  decide

end KiitEvents
